import Mathlib

/-!
Shallow embedding of `automation.py` (task dispatcher over a fixed data
directory) and proofs of the specification claims.

The program is a FastAPI application exposing `run(task)` and `get(task)`
over eight file-processing task functions, guarded by a textual
path-prefix check (`enforce_security`).  The embedding models the file
system as an explicit state value, file operations as events recorded in
a trace, and the external collaborators that the specification declares
out of scope (JSON/SQL libraries, OCR engine, sentence-embedding model)
as components of an `Ext` record of black-box functions.
-/

namespace Automation

/-! ## Path and string utilities -/

/-- `DATA_DIR = "data/"` from the source. -/
def DATA_DIR : String := "data/"

/-- Model of Python `str.startswith(p)`: a character-level prefix test
(the model of the textual check in `enforce_security`). -/
def pyStartswith (s p : String) : Bool := p.toList.isPrefixOf s.toList

/-- Model of Python `str.endswith(p)`: a character-level suffix test. -/
def pyEndswith (s p : String) : Bool := p.toList.isSuffixOf s.toList

/-- Model of `os.path.join(a, b)` (POSIX, two arguments): an absolute
second component discards the first; otherwise a separator is inserted
unless `a` already ends with one. -/
def pjoin (a b : String) : String :=
  if pyStartswith b "/" then b
  else if pyEndswith a "/" then a ++ b
  else a ++ "/" ++ b

/-- Model of Python `str.strip()` (ASCII whitespace; Python also strips a
few rarer control characters, which no claim exercises). -/
def pyStrip (s : String) : String :=
  String.mk (((s.toList.dropWhile Char.isWhitespace).reverse.dropWhile Char.isWhitespace).reverse)

/-- Helper for `pyReadlines`: split after each newline, keeping the
terminator, discarding a final empty piece. -/
def splitLinesAux : List Char → List Char → List String
  | [], [] => []
  | [], acc => [String.mk acc.reverse]
  | '\n' :: rest, acc => String.mk (acc.reverse ++ ['\n']) :: splitLinesAux rest []
  | c :: rest, acc => splitLinesAux rest (c :: acc)

/-- Model of Python `f.readlines()` / iterating a text file: the list of
lines, each keeping its trailing newline; the empty file gives `[]`. -/
def pyReadlines (s : String) : List String := splitLinesAux s.toList []

/-- Model of Python `f.readline()`: the prefix of the content up to and
including the first newline (here without the terminator, because every
use in the program immediately strips it). -/
def firstLineOf (s : String) : String := String.mk (s.toList.takeWhile (· ≠ '\n'))

/-! ## Date parser (`parse_date` and the `date_formats` table)

`datetime.strptime` is an external library routine (the specification
lists date-string parsing libraries as out-of-scope collaborators); it is
modelled here concretely for exactly the eleven formats of the
`date_formats` table, following CPython `_strptime` semantics: each
numeric directive matches one or two digits within its range (two digits
preferred), `%Y` matches exactly four digits, month names and AM/PM match
case-insensitively, whitespace in the format matches a run of whitespace,
the whole input must be consumed, and the resulting field values must
form a valid `datetime`. -/

/-- The `date_formats` list from the source, in order. -/
def date_formats : List String :=
  ["%Y-%m-%d", "%d/%m/%Y", "%m-%d-%Y", "%Y/%m/%d",
   "%d %b %Y", "%d %B %Y", "%b %d, %Y", "%B %d, %Y",
   "%Y-%m-%d %H:%M:%S", "%d/%m/%Y %H:%M", "%m-%d-%Y %I:%M %p"]

/-- Field accumulator during format matching, with `strptime` defaults. -/
structure PFields where
  year : Nat := 1900
  month : Nat := 1
  day : Nat := 1
  hour : Nat := 0
  minute : Nat := 0
  second : Nat := 0
  hour12 : Option Nat := none
  pm : Option Bool := none
  deriving DecidableEq

/-- A parsed `datetime` value (the fields the program observes). -/
structure PyDateTime where
  year : Nat
  month : Nat
  day : Nat
  hour : Nat
  minute : Nat
  second : Nat
  deriving DecidableEq

def digitVal (c : Char) : Nat := c.toNat - 48

/-- Match two digits whose value lies in `[lo2, hi2]`, else one digit
whose value lies in `[lo1, hi1]` (the alternation order of the CPython
directive regexes, committed at the directive). -/
def matchNum (lo2 hi2 lo1 hi1 : Nat) : List Char → Option (Nat × List Char)
  | c1 :: c2 :: rest =>
    if c1.isDigit ∧ c2.isDigit ∧ lo2 ≤ digitVal c1 * 10 + digitVal c2 ∧
        digitVal c1 * 10 + digitVal c2 ≤ hi2 then
      some (digitVal c1 * 10 + digitVal c2, rest)
    else if c1.isDigit ∧ lo1 ≤ digitVal c1 ∧ digitVal c1 ≤ hi1 then
      some (digitVal c1, c2 :: rest)
    else none
  | [c1] =>
    if c1.isDigit ∧ lo1 ≤ digitVal c1 ∧ digitVal c1 ≤ hi1 then
      some (digitVal c1, [])
    else none
  | [] => none

/-- `%Y`: exactly four digits. -/
def matchYear : List Char → Option (Nat × List Char)
  | c1 :: c2 :: c3 :: c4 :: rest =>
    if c1.isDigit ∧ c2.isDigit ∧ c3.isDigit ∧ c4.isDigit then
      some (((digitVal c1 * 10 + digitVal c2) * 10 + digitVal c3) * 10 + digitVal c4, rest)
    else none
  | _ => none

/-- Case-insensitive match of one name from a table. -/
def matchName (names : List (String × Nat)) (cs : List Char) : Option (Nat × List Char) :=
  names.findSome? fun nv =>
    if (cs.take nv.1.length).map Char.toLower = nv.1.toList then
      some (nv.2, cs.drop nv.1.length)
    else none

def monthAbbrs : List (String × Nat) :=
  [("jan", 1), ("feb", 2), ("mar", 3), ("apr", 4), ("may", 5), ("jun", 6),
   ("jul", 7), ("aug", 8), ("sep", 9), ("oct", 10), ("nov", 11), ("dec", 12)]

def monthNames : List (String × Nat) :=
  [("january", 1), ("february", 2), ("march", 3), ("april", 4), ("may", 5),
   ("june", 6), ("july", 7), ("august", 8), ("september", 9), ("october", 10),
   ("november", 11), ("december", 12)]

/-- Interpret a format string against an input, accumulating fields.
Whitespace in the format matches a (greedy) nonempty run of whitespace;
any other non-directive character must match literally; the input must be
fully consumed. -/
def runFormat : List Char → List Char → PFields → Option PFields
  | [], [], acc => some acc
  | [], _ :: _, _ => none
  | '%' :: d :: fmtRest, cs, acc =>
    match d with
    | 'Y' => (matchYear cs).bind fun vr => runFormat fmtRest vr.2 { acc with year := vr.1 }
    | 'm' => (matchNum 1 12 1 9 cs).bind fun vr => runFormat fmtRest vr.2 { acc with month := vr.1 }
    | 'd' => (matchNum 1 31 1 9 cs).bind fun vr => runFormat fmtRest vr.2 { acc with day := vr.1 }
    | 'H' => (matchNum 0 23 0 9 cs).bind fun vr => runFormat fmtRest vr.2 { acc with hour := vr.1 }
    | 'M' => (matchNum 0 59 0 9 cs).bind fun vr => runFormat fmtRest vr.2 { acc with minute := vr.1 }
    | 'S' => (matchNum 0 61 0 9 cs).bind fun vr => runFormat fmtRest vr.2 { acc with second := vr.1 }
    | 'I' => (matchNum 1 12 1 9 cs).bind fun vr => runFormat fmtRest vr.2 { acc with hour12 := some vr.1 }
    | 'b' => (matchName monthAbbrs cs).bind fun vr => runFormat fmtRest vr.2 { acc with month := vr.1 }
    | 'B' => (matchName monthNames cs).bind fun vr => runFormat fmtRest vr.2 { acc with month := vr.1 }
    | 'p' => (matchName [("am", 0), ("pm", 1)] cs).bind fun vr =>
        runFormat fmtRest vr.2 { acc with pm := some (vr.1 = 1) }
    | _ => none
  | c :: fmtRest, cs, acc =>
    if c.isWhitespace then
      match cs with
      | c2 :: csRest =>
        if c2.isWhitespace then runFormat fmtRest (csRest.dropWhile Char.isWhitespace) acc
        else none
      | [] => none
    else
      match cs with
      | c2 :: csRest => if c2 = c then runFormat fmtRest csRest acc else none
      | [] => none

def isLeap (y : Nat) : Bool := y % 4 = 0 ∧ (y % 100 ≠ 0 ∨ y % 400 = 0)

def daysInMonth (y m : Nat) : Nat :=
  if m = 2 then (if isLeap y then 29 else 28)
  else if m = 4 ∨ m = 6 ∨ m = 9 ∨ m = 11 then 30
  else 31

/-- Validation and construction performed by the `datetime` constructor
(plus the `%I`/`%p` hour combination done by `_strptime`). -/
def finalize (f : PFields) : Option PyDateTime :=
  let hour := match f.hour12, f.pm with
    | some i, some true => if i = 12 then 12 else i + 12
    | some i, some false => if i = 12 then 0 else i
    | some i, none => i
    | none, _ => f.hour
  if 1 ≤ f.year ∧ f.day ≤ daysInMonth f.year f.month ∧ f.second ≤ 59 then
    some ⟨f.year, f.month, f.day, hour, f.minute, f.second⟩
  else none

/-- Model of `datetime.strptime(s, fmt)` restricted to the format
directives used by `date_formats` (`none` models `ValueError`). -/
def strptime (s fmt : String) : Option PyDateTime :=
  (runFormat fmt.toList s.toList {}).bind finalize

/-- `parse_date` from the source: strip the input, try each format in
order, return the first success, `none` when every format fails. -/
def parse_date (s : String) : Option PyDateTime :=
  date_formats.findSome? fun fmt => strptime (pyStrip s) fmt

/-- Days from 0001-01-01 (= day 1) in the proleptic Gregorian calendar,
as in `datetime.date.toordinal`. -/
def toordinal (d : PyDateTime) : Nat :=
  365 * (d.year - 1) + (d.year - 1) / 4 - (d.year - 1) / 100 + (d.year - 1) / 400 +
    ((List.range (d.month - 1)).map (fun i => daysInMonth d.year (i + 1))).sum + d.day

/-- `datetime.weekday()`: Monday = 0, ..., Wednesday = 2, ..., Sunday = 6. -/
def weekday (d : PyDateTime) : Nat := (toordinal d + 6) % 7

/-- One line of the dates file counts when it parses and the parsed date
falls on a Wednesday (`parsed_date.weekday() == 2`). -/
def isWednesdayLine (line : String) : Bool :=
  match parse_date line with
  | some d => weekday d = 2
  | none => false

/-- The count computed by `count_wednesdays` over the input content. -/
def wednesdayCount (content : String) : Nat :=
  (pyReadlines content).countP isWednesdayLine

/-! ## File system, events, and external collaborators -/

/-- A contact record: the two sort-key fields plus one further field,
standing for whatever else a record carries (the specification's JSON
library is a black box; records are modelled already parsed). -/
structure Contact where
  first_name : String
  last_name : String
  email : String
  deriving DecidableEq

/-- A row of the `tickets(type, units, price)` table. -/
structure Ticket where
  type : String
  units : Int
  price : Int
  deriving DecidableEq

/-- The file-system state: file contents, modification times, and
directory listings, each as an association list keyed by path. -/
structure FS where
  files : List (String × String)
  mtimes : List (String × Nat)
  listing : List (String × List String)
  deriving DecidableEq

/-- Overwriting write (`open(p, "w")` followed by a full write). -/
def FS.write (fs : FS) (p c : String) : FS :=
  { fs with files := (p, c) :: fs.files }

/-- One file-system access event, recorded in program order. -/
inductive Event where
  | guard (p : String)
  | openR (p : String)
  | openW (p : String)
  | listD (p : String)
  | statM (p : String)
  | statE (p : String)
  deriving DecidableEq

/-- A Python exception, as the dispatcher observes it. -/
inductive Err where
  | perm (p : String)
  | exc (msg : String)
  deriving DecidableEq

/-- `str(e)` as used for the HTTP 500 detail. -/
def errDetail : Err → String
  | .perm p => "Access denied: " ++ p ++ " is outside " ++ DATA_DIR
  | .exc m => m

/-- The external collaborators the specification declares out of scope,
as black-box total functions.
Modelled from the spec: JSON and SQL libraries, the OCR engine, the
sentence-embedding model with its cosine-similarity routine, and the
regex engine's search for the credit-card pattern are external; each is
an opaque function, with similarity scores taken as integers (only their
order matters to the selection). -/
structure Ext where
  parseContacts : String → Option (List Contact)
  dumpContacts : List Contact → String
  readTickets : String → Option (List Ticket)
  ocr : String → String
  cardScan : String → Option String
  sim : List String → Nat → Nat → Int

/-- Result of running one task function: the access trace and either the
resulting file system or the exception that aborted the task. -/
abbrev TaskOut := List Event × Except Err FS

/-- `enforce_security` from the source: a purely textual prefix check. -/
def enforce_security (p : String) : Except Err Unit :=
  if pyStartswith p DATA_DIR then .ok () else .error (.perm p)

/-! ## The eight task functions -/

/-- `count_wednesdays` (task A3). -/
def count_wednesdays (fs : FS) : TaskOut :=
  let input_file := pjoin DATA_DIR "dates.txt"
  let output_file := pjoin DATA_DIR "dates-wednesdays.txt"
  match enforce_security input_file with
  | .error e => ([.guard input_file], .error e)
  | .ok _ =>
  match enforce_security output_file with
  | .error e => ([.guard input_file, .guard output_file], .error e)
  | .ok _ =>
  match fs.files.lookup input_file with
  | none =>
    ([.guard input_file, .guard output_file, .statE input_file, .openW output_file],
     .ok (fs.write output_file "0\n"))
  | some content =>
    ([.guard input_file, .guard output_file, .statE input_file, .openR input_file,
      .openW output_file],
     .ok (fs.write output_file (toString (wednesdayCount content) ++ "\n")))

/-- Lexicographic comparison of character lists by code point: the model
of Python string `<`. -/
def charListLt : List Char → List Char → Bool
  | [], [] => false
  | [], _ :: _ => true
  | _ :: _, [] => false
  | a :: as, b :: bs => if a < b then true else if b < a then false else charListLt as bs

/-- Python string `<` (code-point lexicographic). -/
def pyStrLt (a b : String) : Bool := charListLt a.toList b.toList

/-- The sort key comparison: record `x` may precede record `y` exactly
when the Python key tuple `(y.last_name, y.first_name)` is not less than
`(x.last_name, x.first_name)` — the non-strict total preorder for which
Python `sorted` is the stable ascending sort. -/
def contactLe (x y : Contact) : Bool :=
  if pyStrLt x.last_name y.last_name then true
  else if pyStrLt y.last_name x.last_name then false
  else !(pyStrLt y.first_name x.first_name)

/-- The list `sorted(contacts, key=...)` produces: Python's sort is the
stable ascending sort for this comparison, i.e. `mergeSort`. -/
def sortContactsList (l : List Contact) : List Contact := l.mergeSort contactLe

/-- `sort_contacts` (task A4). -/
def sort_contacts (ext : Ext) (fs : FS) : TaskOut :=
  let input_file := pjoin DATA_DIR "contacts.json"
  let output_file := pjoin DATA_DIR "contacts-sorted.json"
  match enforce_security input_file with
  | .error e => ([.guard input_file], .error e)
  | .ok _ =>
  match enforce_security output_file with
  | .error e => ([.guard input_file, .guard output_file], .error e)
  | .ok _ =>
  match fs.files.lookup input_file with
  | none =>
    ([.guard input_file, .guard output_file, .openR input_file],
     .error (.exc ("No such file or directory: " ++ input_file)))
  | some content =>
  match ext.parseContacts content with
  | none =>
    ([.guard input_file, .guard output_file, .openR input_file],
     .error (.exc "Expecting value: line 1 column 1"))
  | some contacts =>
    ([.guard input_file, .guard output_file, .openR input_file, .openW output_file],
     .ok (fs.write output_file (ext.dumpContacts (sortContactsList contacts))))

/-- The keys `sorted(..., key=os.path.getmtime, ...)` computes, in list
order, aborting at the first path whose stat fails. -/
def getMtimes (fs : FS) : List String → List Event × Except Err (List (String × Nat))
  | [] => ([], .ok [])
  | p :: rest =>
    match fs.mtimes.lookup p with
    | none => ([.statM p], .error (.exc ("No such file or directory: " ++ p)))
    | some t =>
      match getMtimes fs rest with
      | (tr, .error e) => (.statM p :: tr, .error e)
      | (tr, .ok l) => (.statM p :: tr, .ok ((p, t) :: l))

/-- The `for log in log_files` loop body of `recent_logs`: guard the
path, open it, keep its stripped first line. -/
def readFirstLines (fs : FS) : List String → List Event × Except Err (List String)
  | [] => ([], .ok [])
  | p :: rest =>
    match enforce_security p with
    | .error e => ([.guard p], .error e)
    | .ok _ =>
    match fs.files.lookup p with
    | none => ([.guard p, .openR p], .error (.exc ("No such file or directory: " ++ p)))
    | some c =>
      match readFirstLines fs rest with
      | (tr, .error e) => ([.guard p, .openR p] ++ tr, .error e)
      | (tr, .ok lines) => ([.guard p, .openR p] ++ tr, .ok (pyStrip (firstLineOf c) :: lines))

/-- Descending-by-mtime comparison used by `sorted(..., reverse=True)`;
Python's reverse sort is the stable sort for this comparison. -/
def mtimeGe (a b : String × Nat) : Bool := b.2 ≤ a.2

/-- `recent_logs` (task A5).  Note: the listed directory itself is never
passed to `enforce_security`, and the mtimes are read during sorting,
before the per-file guard in the read loop. -/
def recent_logs (fs : FS) : TaskOut :=
  let logs_dir := pjoin DATA_DIR "logs"
  let output_file := pjoin DATA_DIR "logs-recent.txt"
  match enforce_security output_file with
  | .error e => ([.guard output_file], .error e)
  | .ok _ =>
  match fs.listing.lookup logs_dir with
  | none =>
    ([.guard output_file, .listD logs_dir],
     .error (.exc ("No such file or directory: " ++ logs_dir)))
  | some names =>
  let paths := (names.filter (pyEndswith · ".log")).map (pjoin logs_dir)
  match getMtimes fs paths with
  | (tr, .error e) => ([.guard output_file, .listD logs_dir] ++ tr, .error e)
  | (tr, .ok pms) =>
  let log_files := ((pms.mergeSort mtimeGe).take 10).map (·.1)
  match readFirstLines fs log_files with
  | (tr2, .error e) => ([.guard output_file, .listD logs_dir] ++ tr ++ tr2, .error e)
  | (tr2, .ok first_lines) =>
    ([.guard output_file, .listD logs_dir] ++ tr ++ tr2 ++ [.openW output_file],
     .ok (fs.write output_file (String.intercalate "\n" first_lines ++ "\n")))

/-- First `# `-titled line of a markdown file, already stripped. -/
def firstH1 (content : String) : Option String :=
  (pyReadlines content).findSome? fun line =>
    if pyStartswith line "# " then some (pyStrip (String.mk (line.toList.drop 2))) else none

/-- The `for file in os.listdir(docs_dir)` loop of `index_markdown`,
returning the accumulated `filename -> title` entries in listing order. -/
def indexLoop (fs : FS) (docs_dir : String) :
    List String → List Event × Except Err (List (String × String))
  | [] => ([], .ok [])
  | f :: rest =>
    if pyEndswith f ".md" then
      let p := pjoin docs_dir f
      match enforce_security p with
      | .error e => ([.guard p], .error e)
      | .ok _ =>
      match fs.files.lookup p with
      | none => ([.guard p, .openR p], .error (.exc ("No such file or directory: " ++ p)))
      | some c =>
        match indexLoop fs docs_dir rest with
        | (tr, .error e) => ([.guard p, .openR p] ++ tr, .error e)
        | (tr, .ok entries) =>
          ([.guard p, .openR p] ++ tr,
           .ok (match firstH1 c with
                | some t => (f, t) :: entries
                | none => entries))
    else indexLoop fs docs_dir rest

/-- Serialization of the index is the JSON library's concern; the entry
list (in insertion order, as a Python dict preserves) is the content. -/
def dumpIndex (entries : List (String × String)) : String :=
  String.intercalate "," (entries.map fun e => e.1 ++ ":" ++ e.2)

/-- `index_markdown` (task A6).  The docs directory is listed without a
guard check on the directory path itself. -/
def index_markdown (fs : FS) : TaskOut :=
  let docs_dir := pjoin DATA_DIR "docs"
  let output_file := pjoin DATA_DIR "docs/index.json"
  match enforce_security output_file with
  | .error e => ([.guard output_file], .error e)
  | .ok _ =>
  match fs.listing.lookup docs_dir with
  | none =>
    ([.guard output_file, .listD docs_dir],
     .error (.exc ("No such file or directory: " ++ docs_dir)))
  | some names =>
  match indexLoop fs docs_dir names with
  | (tr, .error e) => ([.guard output_file, .listD docs_dir] ++ tr, .error e)
  | (tr, .ok entries) =>
    ([.guard output_file, .listD docs_dir] ++ tr ++ [.openW output_file],
     .ok (fs.write output_file (dumpIndex entries)))

/-- Scan for a terminator on the current line: the characters before the
first occurrence of `stop`, failing at a newline or the end. -/
def uptoChar (stop : Char) : List Char → Option (List Char × List Char)
  | [] => none
  | c :: rest =>
    if c = stop then some ([], rest)
    else if c = '\n' then none
    else (uptoChar stop rest).map fun ab => (c :: ab.1, ab.2)

/-- `re.search(r"From:.*?<(.*?)>", text)`: at a position just after a
`From:` occurrence, the lazy pieces take the first `<` and then the first
`>` on the same line; `.` does not cross a newline. -/
def matchFromAt (cs : List Char) : Option String :=
  (uptoChar '<' cs).bind fun br =>
  (uptoChar '>' br.2).map fun ar => String.mk ar.1

/-- Leftmost-match search for the `From:` pattern. -/
def searchFrom : List Char → Option String
  | [] => none
  | c :: rest =>
    if c = 'F' ∧ rest.take 4 = ['r', 'o', 'm', ':'] then
      match matchFromAt (rest.drop 4) with
      | some a => some a
      | none => searchFrom rest
    else searchFrom rest

/-- `email_sender` (task A7). -/
def email_sender (fs : FS) : TaskOut :=
  let input_file := pjoin DATA_DIR "email.txt"
  let output_file := pjoin DATA_DIR "email-sender.txt"
  match enforce_security input_file with
  | .error e => ([.guard input_file], .error e)
  | .ok _ =>
  match enforce_security output_file with
  | .error e => ([.guard input_file, .guard output_file], .error e)
  | .ok _ =>
  match fs.files.lookup input_file with
  | none =>
    ([.guard input_file, .guard output_file, .statE input_file, .openW output_file],
     .ok (fs.write output_file ("" ++ "\n")))
  | some content =>
    let extracted := (searchFrom (pyStrip content).toList).getD ""
    ([.guard input_file, .guard output_file, .statE input_file, .openR input_file,
      .openW output_file],
     .ok (fs.write output_file (extracted ++ "\n")))

/-- `re.sub(r"\D", "", s)`: keep only the digits. -/
def stripNonDigits (s : String) : String := String.mk (s.toList.filter Char.isDigit)

/-- `extract_credit_card` (task A8); OCR and the card-pattern search are
the black boxes of `Ext`. -/
def extract_credit_card (ext : Ext) (fs : FS) : TaskOut :=
  let input_image := pjoin DATA_DIR "credit-card.png"
  let output_file := pjoin DATA_DIR "credit-card.txt"
  match enforce_security input_image with
  | .error e => ([.guard input_image], .error e)
  | .ok _ =>
  match enforce_security output_file with
  | .error e => ([.guard input_image, .guard output_file], .error e)
  | .ok _ =>
  match fs.files.lookup input_image with
  | none =>
    ([.guard input_image, .guard output_file, .openR input_image],
     .error (.exc ("No such file or directory: " ++ input_image)))
  | some bytes =>
    let extracted := match ext.cardScan (ext.ocr bytes) with
      | some g => stripNonDigits g
      | none => ""
    ([.guard input_image, .guard output_file, .openR input_image, .openW output_file],
     .ok (fs.write output_file (extracted ++ "\n")))

/-- The non-empty stripped lines of the comments file. -/
def commentLines (content : String) : List String :=
  ((pyReadlines content).map pyStrip).filter (· ≠ "")

/-- Row-major flattened similarity matrix with the diagonal forced to 0
(`np.fill_diagonal(similarities, 0)`). -/
def flatScore (f : Nat → Nat → Int) (n k : Nat) : Int :=
  if k / n = k % n then 0 else f (k / n) (k % n)

/-- `np.argmax` over the flattened matrix: the first index attaining the
maximum, in row-major order. -/
def argmaxFlat (f : Nat → Nat → Int) (n : Nat) : Nat :=
  (List.range (n * n)).foldl
    (fun best k => if flatScore f n best < flatScore f n k then k else best) 0

/-- `similar_comments` (task A9).  With fewer than two comments the task
returns before touching the output file. -/
def similar_comments (ext : Ext) (fs : FS) : TaskOut :=
  let input_file := pjoin DATA_DIR "comments.txt"
  let output_file := pjoin DATA_DIR "comments-similar.txt"
  match enforce_security input_file with
  | .error e => ([.guard input_file], .error e)
  | .ok _ =>
  match enforce_security output_file with
  | .error e => ([.guard input_file, .guard output_file], .error e)
  | .ok _ =>
  match fs.files.lookup input_file with
  | none =>
    ([.guard input_file, .guard output_file, .openR input_file],
     .error (.exc ("No such file or directory: " ++ input_file)))
  | some content =>
  let comments := commentLines content
  if comments.length < 2 then
    ([.guard input_file, .guard output_file, .openR input_file], .ok fs)
  else
    let n := comments.length
    let k := argmaxFlat (ext.sim comments) n
    let comment1 := comments.getD (k / n) ""
    let comment2 := comments.getD (k % n) ""
    ([.guard input_file, .guard output_file, .openR input_file, .openW output_file],
     .ok (fs.write output_file (comment1 ++ "\n" ++ comment2 ++ "\n")))

/-- `SUM(units * price) ... WHERE type = 'Gold'`, with the SQL `NULL`
of an empty sum already collapsed to 0 exactly as `... or 0` does. -/
def goldTotal (rows : List Ticket) : Int :=
  ((rows.filter fun r => r.type = "Gold").map fun r => r.units * r.price).sum

/-- `total_gold_sales` (task A10).  A missing or non-database file makes
the query raise (`sqlite3.connect` on a missing path would also create an
empty database file, an effect no further code observes). -/
def total_gold_sales (ext : Ext) (fs : FS) : TaskOut :=
  let db_file := pjoin DATA_DIR "ticket-sales.db"
  let output_file := pjoin DATA_DIR "ticket-sales-gold.txt"
  match enforce_security db_file with
  | .error e => ([.guard db_file], .error e)
  | .ok _ =>
  match enforce_security output_file with
  | .error e => ([.guard db_file, .guard output_file], .error e)
  | .ok _ =>
  match fs.files.lookup db_file with
  | none =>
    ([.guard db_file, .guard output_file, .openR db_file],
     .error (.exc "no such table: tickets"))
  | some content =>
  match ext.readTickets content with
  | none =>
    ([.guard db_file, .guard output_file, .openR db_file],
     .error (.exc "file is not a database"))
  | some rows =>
    ([.guard db_file, .guard output_file, .openR db_file, .openW output_file],
     .ok (fs.write output_file (toString (goldTotal rows) ++ "\n")))

/-! ## Dispatcher -/

/-- The fixed set of task names (keys of both registry mappings). -/
def taskNames : List String :=
  ["count_wednesdays", "sort_contacts", "recent_logs", "index_markdown",
   "email_sender", "extract_credit_card", "similar_comments", "total_gold_sales"]

/-- The `task_map` of `run_task`. -/
def task_map (ext : Ext) : String → Option (FS → TaskOut)
  | "count_wednesdays" => some count_wednesdays
  | "sort_contacts" => some (sort_contacts ext)
  | "recent_logs" => some recent_logs
  | "index_markdown" => some index_markdown
  | "email_sender" => some email_sender
  | "extract_credit_card" => some (extract_credit_card ext)
  | "similar_comments" => some (similar_comments ext)
  | "total_gold_sales" => some (total_gold_sales ext)
  | _ => none

/-- The response of `POST /run`. -/
inductive RunResult where
  /-- HTTP 200 with body `"status": "success"`, and the file system the
  task left behind. -/
  | success (fs : FS)
  /-- `HTTPException(code, detail)`. -/
  | failure (code : Nat) (detail : String)
  deriving DecidableEq

/-- `run_task` from the source: unknown names are rejected before any
file-system access; a task exception becomes HTTP 500 with `str(e)`. -/
def run_task (ext : Ext) (task : String) (fs : FS) : List Event × RunResult :=
  match task_map ext task with
  | none => ([], .failure 400 "Invalid task")
  | some f =>
    match f fs with
    | (tr, .ok fs2) => (tr, .success fs2)
    | (tr, .error e) => (tr, .failure 500 (errDetail e))

/-- The `output_map` of `get_task_output`. -/
def output_map : String → Option String
  | "count_wednesdays" => some "dates-wednesdays.txt"
  | "sort_contacts" => some "contacts-sorted.json"
  | "recent_logs" => some "logs-recent.txt"
  | "index_markdown" => some "docs/index.json"
  | "email_sender" => some "email-sender.txt"
  | "extract_credit_card" => some "credit-card.txt"
  | "similar_comments" => some "comments-similar.txt"
  | "total_gold_sales" => some "ticket-sales-gold.txt"
  | _ => none

/-- The response of `GET /get`. -/
inductive GetResult where
  /-- HTTP 200 with body `"output": s`. -/
  | output (s : String)
  /-- `HTTPException(code, detail)`. -/
  | failure (code : Nat) (detail : String)
  deriving DecidableEq

/-- The `NameError` the interpreter raises inside the `try` block of
`get_task_output`, rendered by `str(e)` (quotation marks elided). -/
def nameErrorDetail : String := "name read_output_file is not defined"

/-- `get_task_output` from the source.  For a known task the `try` block
evaluates `read_output_file(output_file)`, but no function of that name
is defined anywhere in the program, so the name lookup raises `NameError`
before any file is opened; the handler converts it to HTTP 500.  The file
system is therefore never accessed, whatever it contains. -/
def get_task_output (task : String) (_fs : FS) : List Event × GetResult :=
  match output_map task with
  | none => ([], .failure 400 "Invalid task")
  | some _ => ([], .failure 500 nameErrorDetail)

instance {e a : Type} [DecidableEq e] [DecidableEq a] : DecidableEq (Except e a) := fun x y =>
  match x, y with
  | .ok v, .ok w => if h : v = w then isTrue (by rw [h]) else isFalse (by simp [h])
  | .ok _, .error _ => isFalse (by simp)
  | .error _, .ok _ => isFalse (by simp)
  | .error v, .error w => if h : v = w then isTrue (by rw [h]) else isFalse (by simp [h])

/-- The task functions, in registry order. -/
def taskFns (ext : Ext) : List (FS → TaskOut) :=
  [count_wednesdays, sort_contacts ext, recent_logs, index_markdown,
   email_sender, extract_credit_card ext, similar_comments ext, total_gold_sales ext]

/-! ## Concrete states used to exercise the theorems -/

/-- A default instantiation of the external black boxes. -/
def ext0 : Ext :=
  { parseContacts := fun _ => none
    dumpContacts := fun _ => ""
    readTickets := fun _ => none
    ocr := fun t => t
    cardScan := fun _ => none
    sim := fun _ _ _ => 0 }

/-- The empty file system. -/
def fs0 : FS := { files := [], mtimes := [], listing := [] }

/-- A state in which `count_wednesdays` has already produced its output
file, readable with content `"5\n"`. -/
def fsGet : FS := { files := [("data/dates-wednesdays.txt", "5\n")], mtimes := [], listing := [] }

/-- One log file, with its modification time and content. -/
def fsLogsSmall : FS :=
  { files := [("data/logs/a.log", "alpha line\nrest")]
    mtimes := [("data/logs/a.log", 5)]
    listing := [("data/logs", ["a.log"])] }

/-- A dates file with three lines: two Wednesdays and one unparseable. -/
def fsDates : FS :=
  { files := [("data/dates.txt", "2023-01-04\nnot a date\n2023-01-11\n")]
    mtimes := [], listing := [] }

def c4a : Contact := { first_name := "Ann", last_name := "Zed", email := "first" }
def c4b : Contact := { first_name := "Ann", last_name := "Zed", email := "second" }
def c4c : Contact := { first_name := "Bo", last_name := "Abel", email := "third" }

/-- Two records with identical sort keys (differing in another field)
followed by one that sorts first. -/
def l4 : List Contact := [c4a, c4b, c4c]

def fsContacts : FS := { files := [("data/contacts.json", "json")], mtimes := [], listing := [] }

/-- External black boxes whose JSON parser yields `l4`. -/
def extContacts : Ext := { ext0 with parseContacts := fun _ => some l4 }

/-- The listing of the logs directory: fifteen log files plus one
non-log entry. -/
def logNames15 : List String :=
  ["f01.log", "f02.log", "f03.log", "f04.log", "f05.log", "f06.log", "f07.log",
   "f08.log", "f09.log", "f10.log", "f11.log", "f12.log", "f13.log", "f14.log",
   "f15.log", "notes.txt"]

/-- Fifteen log files with distinct modification times, listed out of
order, plus one non-log entry. -/
def fsLogs15 : FS :=
  { files :=
      [("data/logs/f01.log", "l01\nx"), ("data/logs/f02.log", "l02\nx"),
       ("data/logs/f03.log", "l03\nx"), ("data/logs/f04.log", "l04\nx"),
       ("data/logs/f05.log", "l05\nx"), ("data/logs/f06.log", "l06\nx"),
       ("data/logs/f07.log", "l07\nx"), ("data/logs/f08.log", "l08\nx"),
       ("data/logs/f09.log", "l09\nx"), ("data/logs/f10.log", "l10\nx"),
       ("data/logs/f11.log", "l11\nx"), ("data/logs/f12.log", "l12\nx"),
       ("data/logs/f13.log", "l13\nx"), ("data/logs/f14.log", "l14\nx"),
       ("data/logs/f15.log", "l15\nx")]
    mtimes :=
      [("data/logs/f01.log", 101), ("data/logs/f02.log", 115), ("data/logs/f03.log", 103),
       ("data/logs/f04.log", 113), ("data/logs/f05.log", 105), ("data/logs/f06.log", 111),
       ("data/logs/f07.log", 107), ("data/logs/f08.log", 109), ("data/logs/f09.log", 108),
       ("data/logs/f10.log", 110), ("data/logs/f11.log", 106), ("data/logs/f12.log", 112),
       ("data/logs/f13.log", 104), ("data/logs/f14.log", 114), ("data/logs/f15.log", 102)]
    listing := [("data/logs", logNames15)] }

/-- A comments file with a single non-empty line. -/
def fsComments : FS :=
  { files := [("data/comments.txt", "just one comment\n\n   \n")], mtimes := [], listing := [] }

def fsTickets : FS := { files := [("data/ticket-sales.db", "db")], mtimes := [], listing := [] }

def ticketRows : List Ticket :=
  [{ type := "Gold", units := 2, price := 5 }, { type := "Silver", units := 7, price := 100 },
   { type := "Gold", units := 1, price := 3 }]

/-- External black boxes whose database reader yields `ticketRows`. -/
def extTickets : Ext := { ext0 with readTickets := fun _ => some ticketRows }

/-- External black boxes whose database reader yields an empty table. -/
def extTicketsEmpty : Ext := { ext0 with readTickets := fun _ => some [] }

/-- The joined paths of the `.log` entries of a listing, in listing
order (the list the comprehension in `recent_logs` builds). -/
def logPaths (names : List String) : List String :=
  (names.filter (pyEndswith · ".log")).map (pjoin (pjoin DATA_DIR "logs"))

/-- The path/mtime pairs `recent_logs` selects: sort by modification time
descending (stable), keep the first ten. -/
def selectedLogs (fs : FS) (names : List String) : List (String × Nat) :=
  (((logPaths names).map fun p => (p, (fs.mtimes.lookup p).getD 0)).mergeSort mtimeGe).take 10

/-! ## Trace invariants -/

/-- Paths guard-checked within the trace, accumulated over `g`. -/
def guardAcc (g : List String) : List Event → List String
  | [] => g
  | .guard p :: tr => guardAcc (p :: g) tr
  | _ :: tr => guardAcc g tr

/-- Every `openR`/`openW` in the trace is preceded by a `guard` of the
same path (`g` holds the paths already guarded). -/
def wellGuardedFrom (g : List String) : List Event → Bool
  | [] => true
  | .guard p :: tr => wellGuardedFrom (p :: g) tr
  | .openR p :: tr => decide (p ∈ g) && wellGuardedFrom g tr
  | .openW p :: tr => decide (p ∈ g) && wellGuardedFrom g tr
  | _ :: tr => wellGuardedFrom g tr

/-- Every `guard` event in the trace checks a path under the data root. -/
def guardsWithinData (tr : List Event) : Bool :=
  tr.all fun e => match e with
    | .guard p => pyStartswith p DATA_DIR
    | _ => true

/-- Well-formedness of a file-system state: directory listings report
bare entry names, never absolute paths (what `os.listdir` guarantees). -/
def validEntries (fs : FS) : Prop :=
  ∀ x ∈ fs.listing, ∀ e ∈ x.2, pyStartswith e "/" = false

theorem mem_guardAcc {p : String} {g : List String} (tr : List Event) (h : p ∈ g) :
    p ∈ guardAcc g tr := by
  induction tr generalizing g with
  | nil => exact h
  | cons e tr ih =>
    cases e with
    | guard q => exact ih (List.mem_cons_of_mem q h)
    | openR q => exact ih h
    | openW q => exact ih h
    | listD q => exact ih h
    | statM q => exact ih h
    | statE q => exact ih h

theorem guardAcc_append (g : List String) (t1 t2 : List Event) :
    guardAcc g (t1 ++ t2) = guardAcc (guardAcc g t1) t2 := by
  induction t1 generalizing g with
  | nil => rfl
  | cons e t1 ih => cases e <;> simp [guardAcc, ih]

theorem wellGuardedFrom_append (g : List String) (t1 t2 : List Event) :
    wellGuardedFrom g (t1 ++ t2) =
      (wellGuardedFrom g t1 && wellGuardedFrom (guardAcc g t1) t2) := by
  induction t1 generalizing g with
  | nil => simp [wellGuardedFrom, guardAcc]
  | cons e t1 ih =>
    cases e <;> simp [wellGuardedFrom, guardAcc, ih, Bool.and_assoc]

theorem guardsWithinData_append (t1 t2 : List Event) :
    guardsWithinData (t1 ++ t2) = (guardsWithinData t1 && guardsWithinData t2) :=
  List.all_append

/-! ## Path-prefix lemmas -/

theorem pyStartswith_append (a b p : String) (h : pyStartswith a p = true) :
    pyStartswith (a ++ b) p = true := by
  simp only [pyStartswith, List.isPrefixOf_iff_prefix] at h ⊢
  have : a.toList <+: (a ++ b).toList := by
    show a.data <+: (a ++ b).data
    rw [String.data_append]
    exact List.prefix_append _ _
  exact h.trans this

/-- Joining a relative component onto a path under the data root stays
under the data root (textually). -/
theorem pjoin_keeps_prefix (a b : String) (ha : pyStartswith a DATA_DIR = true)
    (hb : pyStartswith b "/" = false) :
    pyStartswith (pjoin a b) DATA_DIR = true := by
  unfold pjoin
  rw [hb]
  by_cases h : pyEndswith a "/" <;> simp only [h, if_true, if_false, Bool.false_eq_true]
  · exact pyStartswith_append a b _ ha
  · exact pyStartswith_append (a ++ "/") b _ (pyStartswith_append a "/" _ ha)

theorem enforce_security_ok {p : String} (h : pyStartswith p DATA_DIR = true) :
    enforce_security p = .ok () := by
  simp [enforce_security, h]

/-! ## Invariants of the loop helpers -/

theorem getMtimes_wg (fs : FS) (ps : List String) (g : List String) :
    wellGuardedFrom g (getMtimes fs ps).1 = true := by
  induction ps generalizing g with
  | nil => rfl
  | cons p rest ih =>
    simp only [getMtimes]
    cases h : fs.mtimes.lookup p with
    | none => rfl
    | some t =>
      cases hr : getMtimes fs rest with
      | mk tr r =>
        have hwg : wellGuardedFrom g tr = true := by have := ih g; rw [hr] at this; exact this
        cases r <;> simpa [wellGuardedFrom] using hwg

theorem getMtimes_guardAcc (fs : FS) (ps : List String) (g : List String) :
    guardAcc g (getMtimes fs ps).1 = g := by
  induction ps generalizing g with
  | nil => rfl
  | cons p rest ih =>
    simp only [getMtimes]
    cases h : fs.mtimes.lookup p with
    | none => rfl
    | some t =>
      cases hr : getMtimes fs rest with
      | mk tr r =>
        have hga : guardAcc g tr = g := by have := ih g; rw [hr] at this; exact this
        cases r <;> simpa [guardAcc] using hga

theorem getMtimes_gd (fs : FS) (ps : List String) :
    guardsWithinData (getMtimes fs ps).1 = true := by
  induction ps with
  | nil => rfl
  | cons p rest ih =>
    simp only [getMtimes]
    cases h : fs.mtimes.lookup p with
    | none => rfl
    | some t =>
      cases hr : getMtimes fs rest with
      | mk tr r =>
        have hgd : guardsWithinData tr = true := by rw [hr] at ih; exact ih
        cases r <;> simpa [guardsWithinData] using hgd

theorem getMtimes_no_perm (fs : FS) (ps : List String) (q : String) :
    (getMtimes fs ps).2 ≠ .error (.perm q) := by
  induction ps with
  | nil => simp [getMtimes]
  | cons p rest ih =>
    simp only [getMtimes]
    cases h : fs.mtimes.lookup p with
    | none => simp
    | some t =>
      cases hr : getMtimes fs rest with
      | mk tr r =>
        rw [hr] at ih
        cases r with
        | error e => simpa using ih
        | ok l => simp

theorem readFirstLines_wg (fs : FS) (ps : List String) (g : List String) :
    wellGuardedFrom g (readFirstLines fs ps).1 = true := by
  induction ps generalizing g with
  | nil => rfl
  | cons p rest ih =>
    simp only [readFirstLines]
    cases he : enforce_security p with
    | error e => rfl
    | ok u =>
      cases u
      cases hl : fs.files.lookup p with
      | none => simp [wellGuardedFrom]
      | some c =>
        cases hr : readFirstLines fs rest with
        | mk tr r =>
          have hwg : wellGuardedFrom (p :: g) tr = true := by
            have := ih (p :: g); rw [hr] at this; exact this
          cases r <;> simp [wellGuardedFrom, hwg]

theorem readFirstLines_gd (fs : FS) (ps : List String)
    (hp : ∀ p ∈ ps, pyStartswith p DATA_DIR = true) :
    guardsWithinData (readFirstLines fs ps).1 = true := by
  induction ps with
  | nil => rfl
  | cons p rest ih =>
    have hp0 : pyStartswith p DATA_DIR = true := hp p (List.mem_cons_self p rest)
    simp only [readFirstLines, enforce_security_ok hp0]
    cases hl : fs.files.lookup p with
    | none => simp [guardsWithinData, hp0]
    | some c =>
      cases hr : readFirstLines fs rest with
      | mk tr r =>
        have hgd : guardsWithinData tr = true := by
          have := ih fun q hq => hp q (List.mem_cons_of_mem p hq)
          rw [hr] at this; exact this
        cases r <;> simp [guardsWithinData, hp0] <;>
          simpa [guardsWithinData] using hgd

theorem readFirstLines_no_perm (fs : FS) (ps : List String)
    (hp : ∀ p ∈ ps, pyStartswith p DATA_DIR = true) (q : String) :
    (readFirstLines fs ps).2 ≠ .error (.perm q) := by
  induction ps with
  | nil => simp [readFirstLines]
  | cons p rest ih =>
    have hp0 : pyStartswith p DATA_DIR = true := hp p (List.mem_cons_self p rest)
    simp only [readFirstLines, enforce_security_ok hp0]
    cases hl : fs.files.lookup p with
    | none => simp
    | some c =>
      cases hr : readFirstLines fs rest with
      | mk tr r =>
        have ihr := ih fun x hx => hp x (List.mem_cons_of_mem p hx)
        rw [hr] at ihr
        cases r with
        | error e => simpa using ihr
        | ok l => simp

theorem indexLoop_wg (fs : FS) (dir : String) (ns : List String) (g : List String) :
    wellGuardedFrom g (indexLoop fs dir ns).1 = true := by
  induction ns generalizing g with
  | nil => rfl
  | cons f rest ih =>
    simp only [indexLoop]
    by_cases hmd : pyEndswith f ".md"
    · simp only [hmd, if_true]
      cases he : enforce_security (pjoin dir f) with
      | error e => rfl
      | ok u =>
        cases u
        cases hl : fs.files.lookup (pjoin dir f) with
        | none => simp [wellGuardedFrom]
        | some c =>
          cases hr : indexLoop fs dir rest with
          | mk tr r =>
            have hwg : wellGuardedFrom (pjoin dir f :: g) tr = true := by
              have := ih (pjoin dir f :: g); rw [hr] at this; exact this
            cases r <;> simp [wellGuardedFrom, hwg]
    · simp only [hmd, if_false]
      exact ih g

theorem indexLoop_gd (fs : FS) (dir : String) (ns : List String)
    (hp : ∀ f ∈ ns, pyStartswith (pjoin dir f) DATA_DIR = true) :
    guardsWithinData (indexLoop fs dir ns).1 = true := by
  induction ns with
  | nil => rfl
  | cons f rest ih =>
    have ihr := ih fun x hx => hp x (List.mem_cons_of_mem f hx)
    simp only [indexLoop]
    by_cases hmd : pyEndswith f ".md"
    · have hp0 : pyStartswith (pjoin dir f) DATA_DIR = true := hp f (List.mem_cons_self f rest)
      simp only [hmd, if_true, enforce_security_ok hp0]
      cases hl : fs.files.lookup (pjoin dir f) with
      | none => simp [guardsWithinData, hp0]
      | some c =>
        cases hr : indexLoop fs dir rest with
        | mk tr r =>
          rw [hr] at ihr
          cases r <;> simp [guardsWithinData, hp0] <;>
            simpa [guardsWithinData] using ihr
    · simpa only [hmd, if_false] using ihr

theorem indexLoop_no_perm (fs : FS) (dir : String) (ns : List String)
    (hp : ∀ f ∈ ns, pyStartswith (pjoin dir f) DATA_DIR = true) (q : String) :
    (indexLoop fs dir ns).2 ≠ .error (.perm q) := by
  induction ns with
  | nil => simp [indexLoop]
  | cons f rest ih =>
    have ihr := ih fun x hx => hp x (List.mem_cons_of_mem f hx)
    simp only [indexLoop]
    by_cases hmd : pyEndswith f ".md"
    · have hp0 : pyStartswith (pjoin dir f) DATA_DIR = true := hp f (List.mem_cons_self f rest)
      simp only [hmd, if_true, enforce_security_ok hp0]
      cases hl : fs.files.lookup (pjoin dir f) with
      | none => simp
      | some c =>
        cases hr : indexLoop fs dir rest with
        | mk tr r =>
          rw [hr] at ihr
          cases r with
          | error e => simpa using ihr
          | ok l => simp
    · simpa only [hmd, if_false] using ihr

theorem lookup_mem {α β : Type} [BEq α] [LawfulBEq α] {l : List (α × β)} {a : α} {b : β}
    (h : l.lookup a = some b) : (a, b) ∈ l := by
  induction l with
  | nil => simp [List.lookup] at h
  | cons kv rest ih =>
    rw [List.lookup] at h
    by_cases hk : a == kv.1
    · rw [hk] at h
      cases h
      have : a = kv.1 := eq_of_beq hk
      subst this
      exact List.mem_cons_self _ _
    · rw [Bool.eq_false_iff.mpr hk] at h
      exact List.mem_cons_of_mem _ (ih h)

/-! ## Per-task trace invariants -/

theorem wg_count_wednesdays (fs : FS) : wellGuardedFrom [] (count_wednesdays fs).1 = true := by
  have h1 := enforce_security_ok (p := pjoin DATA_DIR "dates.txt") (by decide)
  have h2 := enforce_security_ok (p := pjoin DATA_DIR "dates-wednesdays.txt") (by decide)
  simp only [count_wednesdays, h1, h2]
  cases h : fs.files.lookup (pjoin DATA_DIR "dates.txt") <;> rfl

theorem wg_sort_contacts (ext : Ext) (fs : FS) :
    wellGuardedFrom [] (sort_contacts ext fs).1 = true := by
  have h1 := enforce_security_ok (p := pjoin DATA_DIR "contacts.json") (by decide)
  have h2 := enforce_security_ok (p := pjoin DATA_DIR "contacts-sorted.json") (by decide)
  simp only [sort_contacts, h1, h2]
  cases h : fs.files.lookup (pjoin DATA_DIR "contacts.json") with
  | none => rfl
  | some c =>
    dsimp only
    cases hp : ext.parseContacts c <;> rfl

theorem wg_recent_logs (fs : FS) : wellGuardedFrom [] (recent_logs fs).1 = true := by
  have h1 := enforce_security_ok (p := pjoin DATA_DIR "logs-recent.txt") (by decide)
  simp only [recent_logs, h1]
  cases hl : fs.listing.lookup (pjoin DATA_DIR "logs") with
  | none => rfl
  | some names =>
    dsimp only
    rcases hm : getMtimes fs ((names.filter (pyEndswith · ".log")).map (pjoin (pjoin DATA_DIR "logs"))) with ⟨tr1, r1⟩
    have hwg1 : wellGuardedFrom [pjoin DATA_DIR "logs-recent.txt"] tr1 = true := by
      have := getMtimes_wg fs ((names.filter (pyEndswith · ".log")).map (pjoin (pjoin DATA_DIR "logs")))
        [pjoin DATA_DIR "logs-recent.txt"]
      rw [hm] at this; exact this
    have hga1 : guardAcc [pjoin DATA_DIR "logs-recent.txt"] tr1 = [pjoin DATA_DIR "logs-recent.txt"] := by
      have := getMtimes_guardAcc fs ((names.filter (pyEndswith · ".log")).map (pjoin (pjoin DATA_DIR "logs")))
        [pjoin DATA_DIR "logs-recent.txt"]
      rw [hm] at this; exact this
    cases r1 with
    | error e =>
      dsimp only
      rw [wellGuardedFrom_append]
      simp only [Bool.and_eq_true]
      exact ⟨rfl, hwg1⟩
    | ok pms =>
      dsimp only
      rcases hr : readFirstLines fs (((pms.mergeSort mtimeGe).take 10).map (·.1)) with ⟨tr2, r2⟩
      rw [hr]
      have hwg2 : wellGuardedFrom [pjoin DATA_DIR "logs-recent.txt"] tr2 = true := by
        have := readFirstLines_wg fs (((pms.mergeSort mtimeGe).take 10).map (·.1))
          [pjoin DATA_DIR "logs-recent.txt"]
        rw [hr] at this; exact this
      cases r2 with
      | error e =>
        dsimp only
        rw [wellGuardedFrom_append, wellGuardedFrom_append, guardAcc_append]
        simp only [Bool.and_eq_true]
        refine ⟨⟨rfl, ?_⟩, ?_⟩
        · exact hwg1
        · show wellGuardedFrom (guardAcc [pjoin DATA_DIR "logs-recent.txt"] tr1) tr2 = true
          rw [hga1]; exact hwg2
      | ok lines =>
        dsimp only
        rw [wellGuardedFrom_append, wellGuardedFrom_append, wellGuardedFrom_append,
          guardAcc_append, guardAcc_append]
        simp only [Bool.and_eq_true]
        refine ⟨⟨⟨rfl, hwg1⟩, ?_⟩, ?_⟩
        · show wellGuardedFrom (guardAcc [pjoin DATA_DIR "logs-recent.txt"] tr1) tr2 = true
          rw [hga1]; exact hwg2
        · show wellGuardedFrom (guardAcc (guardAcc [pjoin DATA_DIR "logs-recent.txt"] tr1) tr2)
            [Event.openW (pjoin DATA_DIR "logs-recent.txt")] = true
          rw [hga1]
          have hmem : pjoin DATA_DIR "logs-recent.txt" ∈
              guardAcc [pjoin DATA_DIR "logs-recent.txt"] tr2 :=
            mem_guardAcc tr2 (List.mem_cons_self _ _)
          simp [wellGuardedFrom, hmem]

theorem wg_index_markdown (fs : FS) : wellGuardedFrom [] (index_markdown fs).1 = true := by
  have h1 := enforce_security_ok (p := pjoin DATA_DIR "docs/index.json") (by decide)
  simp only [index_markdown, h1]
  cases hl : fs.listing.lookup (pjoin DATA_DIR "docs") with
  | none => rfl
  | some names =>
    dsimp only
    rcases hi : indexLoop fs (pjoin DATA_DIR "docs") names with ⟨tr, r⟩
    have hwg : wellGuardedFrom [pjoin DATA_DIR "docs/index.json"] tr = true := by
      have := indexLoop_wg fs (pjoin DATA_DIR "docs") names [pjoin DATA_DIR "docs/index.json"]
      rw [hi] at this; exact this
    cases r with
    | error e =>
      dsimp only
      rw [wellGuardedFrom_append]
      simp only [Bool.and_eq_true]
      exact ⟨rfl, hwg⟩
    | ok entries =>
      dsimp only
      rw [wellGuardedFrom_append, wellGuardedFrom_append, guardAcc_append]
      simp only [Bool.and_eq_true]
      refine ⟨⟨rfl, hwg⟩, ?_⟩
      show wellGuardedFrom (guardAcc [pjoin DATA_DIR "docs/index.json"] tr)
        [Event.openW (pjoin DATA_DIR "docs/index.json")] = true
      have hmem : pjoin DATA_DIR "docs/index.json" ∈
          guardAcc [pjoin DATA_DIR "docs/index.json"] tr :=
        mem_guardAcc tr (List.mem_cons_self _ _)
      simp [wellGuardedFrom, hmem]

theorem wg_email_sender (fs : FS) : wellGuardedFrom [] (email_sender fs).1 = true := by
  have h1 := enforce_security_ok (p := pjoin DATA_DIR "email.txt") (by decide)
  have h2 := enforce_security_ok (p := pjoin DATA_DIR "email-sender.txt") (by decide)
  simp only [email_sender, h1, h2]
  cases h : fs.files.lookup (pjoin DATA_DIR "email.txt") <;> rfl

theorem wg_extract_credit_card (ext : Ext) (fs : FS) :
    wellGuardedFrom [] (extract_credit_card ext fs).1 = true := by
  have h1 := enforce_security_ok (p := pjoin DATA_DIR "credit-card.png") (by decide)
  have h2 := enforce_security_ok (p := pjoin DATA_DIR "credit-card.txt") (by decide)
  simp only [extract_credit_card, h1, h2]
  cases h : fs.files.lookup (pjoin DATA_DIR "credit-card.png") <;> rfl

theorem wg_similar_comments (ext : Ext) (fs : FS) :
    wellGuardedFrom [] (similar_comments ext fs).1 = true := by
  have h1 := enforce_security_ok (p := pjoin DATA_DIR "comments.txt") (by decide)
  have h2 := enforce_security_ok (p := pjoin DATA_DIR "comments-similar.txt") (by decide)
  simp only [similar_comments, h1, h2]
  cases h : fs.files.lookup (pjoin DATA_DIR "comments.txt") with
  | none => rfl
  | some c =>
    dsimp only
    split <;> rfl

theorem wg_total_gold_sales (ext : Ext) (fs : FS) :
    wellGuardedFrom [] (total_gold_sales ext fs).1 = true := by
  have h1 := enforce_security_ok (p := pjoin DATA_DIR "ticket-sales.db") (by decide)
  have h2 := enforce_security_ok (p := pjoin DATA_DIR "ticket-sales-gold.txt") (by decide)
  simp only [total_gold_sales, h1, h2]
  cases h : fs.files.lookup (pjoin DATA_DIR "ticket-sales.db") with
  | none => rfl
  | some c =>
    dsimp only
    cases hp : ext.readTickets c <;> rfl

/-- Any path built in `recent_logs` by joining the logs directory with a
`.log` entry of a well-formed listing stays under the data root. -/
theorem logPaths_prefix (fs : FS) (hwf : validEntries fs) (names : List String)
    (hl : fs.listing.lookup (pjoin DATA_DIR "logs") = some names) :
    ∀ p ∈ (names.filter (pyEndswith · ".log")).map (pjoin (pjoin DATA_DIR "logs")),
      pyStartswith p DATA_DIR = true := by
  intro p hp
  rcases List.mem_map.mp hp with ⟨x, hx, rfl⟩
  have hx2 : x ∈ names := (List.mem_filter.mp hx).1
  have hnx : pyStartswith x "/" = false := hwf _ (lookup_mem hl) x hx2
  exact pjoin_keeps_prefix _ _ (by decide) hnx

/-- The first components of a successful `getMtimes` result all come from
the path list it was given. -/
theorem getMtimes_ok_fst (fs : FS) (ps : List String) (pms : List (String × Nat))
    (h : (getMtimes fs ps).2 = .ok pms) : ∀ x ∈ pms, x.1 ∈ ps := by
  induction ps generalizing pms with
  | nil =>
    simp only [getMtimes] at h
    cases h
    simp
  | cons p rest ih =>
    simp only [getMtimes] at h
    cases hk : fs.mtimes.lookup p with
    | none => rw [hk] at h; simp at h
    | some t =>
      rw [hk] at h
      rcases hr : getMtimes fs rest with ⟨tr, r⟩
      rw [hr] at h
      cases r with
      | error e => simp at h
      | ok l =>
        dsimp only at h
        injection h with h2
        subst h2
        intro x hx
        rcases List.mem_cons.mp hx with h1 | h2
        · subst h1; exact List.mem_cons_self _ _
        · exact List.mem_cons_of_mem _ (ih l (by rw [hr]) x h2)

theorem gd_count_wednesdays (fs : FS) : guardsWithinData (count_wednesdays fs).1 = true := by
  have h1 := enforce_security_ok (p := pjoin DATA_DIR "dates.txt") (by decide)
  have h2 := enforce_security_ok (p := pjoin DATA_DIR "dates-wednesdays.txt") (by decide)
  simp only [count_wednesdays, h1, h2]
  cases h : fs.files.lookup (pjoin DATA_DIR "dates.txt") <;> rfl

theorem np_count_wednesdays (fs : FS) (q : String) :
    (count_wednesdays fs).2 ≠ .error (.perm q) := by
  have h1 := enforce_security_ok (p := pjoin DATA_DIR "dates.txt") (by decide)
  have h2 := enforce_security_ok (p := pjoin DATA_DIR "dates-wednesdays.txt") (by decide)
  simp only [count_wednesdays, h1, h2]
  cases h : fs.files.lookup (pjoin DATA_DIR "dates.txt") <;> dsimp only <;> simp

theorem gd_sort_contacts (ext : Ext) (fs : FS) :
    guardsWithinData (sort_contacts ext fs).1 = true := by
  have h1 := enforce_security_ok (p := pjoin DATA_DIR "contacts.json") (by decide)
  have h2 := enforce_security_ok (p := pjoin DATA_DIR "contacts-sorted.json") (by decide)
  simp only [sort_contacts, h1, h2]
  cases h : fs.files.lookup (pjoin DATA_DIR "contacts.json") with
  | none => rfl
  | some c =>
    dsimp only
    cases hp : ext.parseContacts c <;> rfl

theorem np_sort_contacts (ext : Ext) (fs : FS) (q : String) :
    (sort_contacts ext fs).2 ≠ .error (.perm q) := by
  have h1 := enforce_security_ok (p := pjoin DATA_DIR "contacts.json") (by decide)
  have h2 := enforce_security_ok (p := pjoin DATA_DIR "contacts-sorted.json") (by decide)
  simp only [sort_contacts, h1, h2]
  cases h : fs.files.lookup (pjoin DATA_DIR "contacts.json") with
  | none => simp
  | some c =>
    dsimp only
    cases hp : ext.parseContacts c <;> simp

theorem gd_recent_logs (fs : FS) (hwf : validEntries fs) :
    guardsWithinData (recent_logs fs).1 = true := by
  have h1 := enforce_security_ok (p := pjoin DATA_DIR "logs-recent.txt") (by decide)
  simp only [recent_logs, h1]
  cases hl : fs.listing.lookup (pjoin DATA_DIR "logs") with
  | none => rfl
  | some names =>
    dsimp only
    rcases hm : getMtimes fs ((names.filter (pyEndswith · ".log")).map (pjoin (pjoin DATA_DIR "logs"))) with ⟨tr1, r1⟩
    have hgd1 : guardsWithinData tr1 = true := by
      have := getMtimes_gd fs ((names.filter (pyEndswith · ".log")).map (pjoin (pjoin DATA_DIR "logs")))
      rw [hm] at this; exact this
    have hpre := logPaths_prefix fs hwf names hl
    cases r1 with
    | error e =>
      dsimp only
      rw [guardsWithinData_append]
      simp only [Bool.and_eq_true]
      exact ⟨by decide, hgd1⟩
    | ok pms =>
      dsimp only
      rcases hr : readFirstLines fs (((pms.mergeSort mtimeGe).take 10).map (·.1)) with ⟨tr2, r2⟩
      rw [hr]
      have hsel : ∀ p ∈ ((pms.mergeSort mtimeGe).take 10).map (·.1),
          pyStartswith p DATA_DIR = true := by
        intro p hp
        rcases List.mem_map.mp hp with ⟨x, hx, rfl⟩
        have hx2 : x ∈ pms := List.mem_mergeSort.mp (List.take_subset _ _ hx)
        exact hpre x.1 (getMtimes_ok_fst fs _ pms (by rw [hm]) x hx2)
      have hgd2 : guardsWithinData tr2 = true := by
        have := readFirstLines_gd fs (((pms.mergeSort mtimeGe).take 10).map (·.1)) hsel
        rw [hr] at this; exact this
      cases r2 with
      | error e =>
        dsimp only
        rw [guardsWithinData_append, guardsWithinData_append]
        simp only [Bool.and_eq_true]
        exact ⟨⟨by decide, hgd1⟩, hgd2⟩
      | ok lines =>
        dsimp only
        rw [guardsWithinData_append, guardsWithinData_append, guardsWithinData_append]
        simp only [Bool.and_eq_true]
        exact ⟨⟨⟨by decide, hgd1⟩, hgd2⟩, by decide⟩

theorem np_recent_logs (fs : FS) (hwf : validEntries fs) (q : String) :
    (recent_logs fs).2 ≠ .error (.perm q) := by
  have h1 := enforce_security_ok (p := pjoin DATA_DIR "logs-recent.txt") (by decide)
  simp only [recent_logs, h1]
  cases hl : fs.listing.lookup (pjoin DATA_DIR "logs") with
  | none => simp
  | some names =>
    dsimp only
    rcases hm : getMtimes fs ((names.filter (pyEndswith · ".log")).map (pjoin (pjoin DATA_DIR "logs"))) with ⟨tr1, r1⟩
    have hpre := logPaths_prefix fs hwf names hl
    cases r1 with
    | error e =>
      dsimp only
      intro hcon
      have := getMtimes_no_perm fs ((names.filter (pyEndswith · ".log")).map (pjoin (pjoin DATA_DIR "logs"))) q
      rw [hm] at this
      cases hcon
      exact this rfl
    | ok pms =>
      dsimp only
      rcases hr : readFirstLines fs (((pms.mergeSort mtimeGe).take 10).map (·.1)) with ⟨tr2, r2⟩
      rw [hr]
      have hsel : ∀ p ∈ ((pms.mergeSort mtimeGe).take 10).map (·.1),
          pyStartswith p DATA_DIR = true := by
        intro p hp
        rcases List.mem_map.mp hp with ⟨x, hx, rfl⟩
        have hx2 : x ∈ pms := List.mem_mergeSort.mp (List.take_subset _ _ hx)
        exact hpre x.1 (getMtimes_ok_fst fs _ pms (by rw [hm]) x hx2)
      cases r2 with
      | error e =>
        dsimp only
        intro hcon
        have := readFirstLines_no_perm fs (((pms.mergeSort mtimeGe).take 10).map (·.1)) hsel q
        rw [hr] at this
        cases hcon
        exact this rfl
      | ok lines => simp

theorem gd_index_markdown (fs : FS) (hwf : validEntries fs) :
    guardsWithinData (index_markdown fs).1 = true := by
  have h1 := enforce_security_ok (p := pjoin DATA_DIR "docs/index.json") (by decide)
  simp only [index_markdown, h1]
  cases hl : fs.listing.lookup (pjoin DATA_DIR "docs") with
  | none => rfl
  | some names =>
    dsimp only
    rcases hi : indexLoop fs (pjoin DATA_DIR "docs") names with ⟨tr, r⟩
    have hpre : ∀ f ∈ names, pyStartswith (pjoin (pjoin DATA_DIR "docs") f) DATA_DIR = true := by
      intro f hf
      exact pjoin_keeps_prefix _ _ (by decide) (hwf _ (lookup_mem hl) f hf)
    have hgd : guardsWithinData tr = true := by
      have := indexLoop_gd fs (pjoin DATA_DIR "docs") names hpre
      rw [hi] at this; exact this
    cases r with
    | error e =>
      dsimp only
      rw [guardsWithinData_append]
      simp only [Bool.and_eq_true]
      exact ⟨by decide, hgd⟩
    | ok entries =>
      dsimp only
      rw [guardsWithinData_append, guardsWithinData_append]
      simp only [Bool.and_eq_true]
      exact ⟨⟨by decide, hgd⟩, by decide⟩

theorem np_index_markdown (fs : FS) (hwf : validEntries fs) (q : String) :
    (index_markdown fs).2 ≠ .error (.perm q) := by
  have h1 := enforce_security_ok (p := pjoin DATA_DIR "docs/index.json") (by decide)
  simp only [index_markdown, h1]
  cases hl : fs.listing.lookup (pjoin DATA_DIR "docs") with
  | none => simp
  | some names =>
    dsimp only
    rcases hi : indexLoop fs (pjoin DATA_DIR "docs") names with ⟨tr, r⟩
    have hpre : ∀ f ∈ names, pyStartswith (pjoin (pjoin DATA_DIR "docs") f) DATA_DIR = true := by
      intro f hf
      exact pjoin_keeps_prefix _ _ (by decide) (hwf _ (lookup_mem hl) f hf)
    cases r with
    | error e =>
      dsimp only
      intro hcon
      have := indexLoop_no_perm fs (pjoin DATA_DIR "docs") names hpre q
      rw [hi] at this
      cases hcon
      exact this rfl
    | ok entries => simp

theorem gd_email_sender (fs : FS) : guardsWithinData (email_sender fs).1 = true := by
  have h1 := enforce_security_ok (p := pjoin DATA_DIR "email.txt") (by decide)
  have h2 := enforce_security_ok (p := pjoin DATA_DIR "email-sender.txt") (by decide)
  simp only [email_sender, h1, h2]
  cases h : fs.files.lookup (pjoin DATA_DIR "email.txt") <;> rfl

theorem np_email_sender (fs : FS) (q : String) :
    (email_sender fs).2 ≠ .error (.perm q) := by
  have h1 := enforce_security_ok (p := pjoin DATA_DIR "email.txt") (by decide)
  have h2 := enforce_security_ok (p := pjoin DATA_DIR "email-sender.txt") (by decide)
  simp only [email_sender, h1, h2]
  cases h : fs.files.lookup (pjoin DATA_DIR "email.txt") <;> dsimp only <;> simp

theorem gd_extract_credit_card (ext : Ext) (fs : FS) :
    guardsWithinData (extract_credit_card ext fs).1 = true := by
  have h1 := enforce_security_ok (p := pjoin DATA_DIR "credit-card.png") (by decide)
  have h2 := enforce_security_ok (p := pjoin DATA_DIR "credit-card.txt") (by decide)
  simp only [extract_credit_card, h1, h2]
  cases h : fs.files.lookup (pjoin DATA_DIR "credit-card.png") <;> rfl

theorem np_extract_credit_card (ext : Ext) (fs : FS) (q : String) :
    (extract_credit_card ext fs).2 ≠ .error (.perm q) := by
  have h1 := enforce_security_ok (p := pjoin DATA_DIR "credit-card.png") (by decide)
  have h2 := enforce_security_ok (p := pjoin DATA_DIR "credit-card.txt") (by decide)
  simp only [extract_credit_card, h1, h2]
  cases h : fs.files.lookup (pjoin DATA_DIR "credit-card.png") <;> dsimp only <;> simp

theorem gd_similar_comments (ext : Ext) (fs : FS) :
    guardsWithinData (similar_comments ext fs).1 = true := by
  have h1 := enforce_security_ok (p := pjoin DATA_DIR "comments.txt") (by decide)
  have h2 := enforce_security_ok (p := pjoin DATA_DIR "comments-similar.txt") (by decide)
  simp only [similar_comments, h1, h2]
  cases h : fs.files.lookup (pjoin DATA_DIR "comments.txt") with
  | none => rfl
  | some c =>
    dsimp only
    split <;> rfl

theorem np_similar_comments (ext : Ext) (fs : FS) (q : String) :
    (similar_comments ext fs).2 ≠ .error (.perm q) := by
  have h1 := enforce_security_ok (p := pjoin DATA_DIR "comments.txt") (by decide)
  have h2 := enforce_security_ok (p := pjoin DATA_DIR "comments-similar.txt") (by decide)
  simp only [similar_comments, h1, h2]
  cases h : fs.files.lookup (pjoin DATA_DIR "comments.txt") with
  | none => simp
  | some c =>
    dsimp only
    split <;> simp

theorem gd_total_gold_sales (ext : Ext) (fs : FS) :
    guardsWithinData (total_gold_sales ext fs).1 = true := by
  have h1 := enforce_security_ok (p := pjoin DATA_DIR "ticket-sales.db") (by decide)
  have h2 := enforce_security_ok (p := pjoin DATA_DIR "ticket-sales-gold.txt") (by decide)
  simp only [total_gold_sales, h1, h2]
  cases h : fs.files.lookup (pjoin DATA_DIR "ticket-sales.db") with
  | none => rfl
  | some c =>
    dsimp only
    cases hp : ext.readTickets c <;> rfl

theorem np_total_gold_sales (ext : Ext) (fs : FS) (q : String) :
    (total_gold_sales ext fs).2 ≠ .error (.perm q) := by
  have h1 := enforce_security_ok (p := pjoin DATA_DIR "ticket-sales.db") (by decide)
  have h2 := enforce_security_ok (p := pjoin DATA_DIR "ticket-sales-gold.txt") (by decide)
  simp only [total_gold_sales, h1, h2]
  cases h : fs.files.lookup (pjoin DATA_DIR "ticket-sales.db") with
  | none => simp
  | some c =>
    dsimp only
    cases hp : ext.readTickets c <;> simp

/-! ## Order properties of the sort comparisons -/

theorem charListLt_irrefl : ∀ (a : List Char), charListLt a a = false
  | [] => rfl
  | c :: cs => by simp [charListLt, lt_irrefl, charListLt_irrefl cs]

theorem charListLt_trans : ∀ {a b c : List Char}, charListLt a b = true →
    charListLt b c = true → charListLt a c = true
  | [], [], _ :: _, h1, _ => by simp [charListLt] at h1
  | [], _ :: _, _ :: _, _, _ => rfl
  | _ :: _, [], _, h1, _ => by simp [charListLt] at h1
  | _ :: _, _ :: _, [], _, h2 => by simp [charListLt] at h2
  | [], [], [], h1, _ => by simp [charListLt] at h1
  | [], _ :: _, [], _, h2 => by simp [charListLt] at h2
  | x :: xs, y :: ys, z :: zs, h1, h2 => by
    simp only [charListLt] at h1 h2 ⊢
    by_cases hxy : x < y <;> by_cases hyz : y < z
    · simp [lt_trans hxy hyz]
    · simp only [hyz, if_false, if_true] at h2
      by_cases hzy : z < y
      · simp [hzy] at h2
      · have : y = z := le_antisymm (not_lt.mp hzy) (not_lt.mp hyz)
        subst this
        simp [hxy]
    · simp only [hxy, if_false, if_true] at h1
      by_cases hyx : y < x
      · simp [hyx] at h1
      · have : x = y := le_antisymm (not_lt.mp hyx) (not_lt.mp hxy)
        subst this
        simp [hyz]
    · simp only [hxy, hyz, if_false] at h1 h2
      by_cases hyx : y < x
      · simp [hyx] at h1
      · by_cases hzy : z < y
        · simp [hzy] at h2
        · simp only [hyx, hzy, if_false] at h1 h2
          have hxz : ¬ x < z := by
            have hx : x = y := le_antisymm (not_lt.mp hyx) (not_lt.mp hxy)
            have hy : y = z := le_antisymm (not_lt.mp hzy) (not_lt.mp hyz)
            rw [hx, hy]
            exact lt_irrefl z
          have hzx : ¬ z < x := by
            have hx : x = y := le_antisymm (not_lt.mp hyx) (not_lt.mp hxy)
            have hy : y = z := le_antisymm (not_lt.mp hzy) (not_lt.mp hyz)
            rw [hx, hy]
            exact lt_irrefl z
          simp [hxz, hzx, charListLt_trans h1 h2]

theorem charListLt_connex : ∀ {a b : List Char}, charListLt a b = false →
    charListLt b a = false → a = b
  | [], [], _, _ => rfl
  | [], _ :: _, h1, _ => by simp [charListLt] at h1
  | _ :: _, [], _, h2 => by simp [charListLt] at h2
  | x :: xs, y :: ys, h1, h2 => by
    simp only [charListLt] at h1 h2
    by_cases hxy : x < y
    · simp [hxy] at h1
    · by_cases hyx : y < x
      · simp [hyx] at h2
      · simp only [hxy, hyx, if_false] at h1 h2
        have hx : x = y := le_antisymm (not_lt.mp hyx) (not_lt.mp hxy)
        have hxs : xs = ys := charListLt_connex h1 h2
        rw [hx, hxs]

theorem pyStrLt_connex {a b : String} (h1 : pyStrLt a b = false)
    (h2 : pyStrLt b a = false) : a = b := by
  have h := charListLt_connex h1 h2
  cases a; cases b
  simp only [String.toList] at h
  exact congrArg String.mk h

theorem pyStrLt_irrefl (a : String) : pyStrLt a a = false := charListLt_irrefl _

theorem pyStrLt_trans {a b c : String} (h1 : pyStrLt a b = true)
    (h2 : pyStrLt b c = true) : pyStrLt a c = true := charListLt_trans h1 h2

theorem contactLe_trans (a b c : Contact) (h1 : contactLe a b = true)
    (h2 : contactLe b c = true) : contactLe a c = true := by
  simp only [contactLe] at h1 h2 ⊢
  cases hab : pyStrLt a.last_name b.last_name <;> cases hbc : pyStrLt b.last_name c.last_name
  · simp only [hab, Bool.false_eq_true, if_false] at h1
    simp only [hbc, Bool.false_eq_true, if_false] at h2
    cases hba : pyStrLt b.last_name a.last_name
    · cases hcb : pyStrLt c.last_name b.last_name
      · simp only [hba, Bool.false_eq_true, if_false, Bool.not_eq_eq_eq_not, Bool.not_true] at h1
        simp only [hcb, Bool.false_eq_true, if_false, Bool.not_eq_eq_eq_not, Bool.not_true] at h2
        have heq1 : a.last_name = b.last_name := pyStrLt_connex hab hba
        have heq2 : b.last_name = c.last_name := pyStrLt_connex hbc hcb
        have hac : pyStrLt a.last_name c.last_name = false := by
          rw [heq1, heq2]; exact pyStrLt_irrefl _
        have hca : pyStrLt c.last_name a.last_name = false := by
          rw [heq1, heq2]; exact pyStrLt_irrefl _
        simp only [hac, hca, Bool.false_eq_true, if_false, Bool.not_eq_eq_eq_not, Bool.not_true]
        cases hfca : pyStrLt c.first_name a.first_name
        · rfl
        · cases hbcf : pyStrLt b.first_name c.first_name
          · have hfeq : b.first_name = c.first_name := pyStrLt_connex hbcf h2
            rw [← hfeq] at hfca
            rw [h1] at hfca
            cases hfca
          · have := pyStrLt_trans hbcf hfca
            rw [h1] at this
            cases this
      · simp [hcb] at h2
    · simp [hba] at h1
  · simp only [hab, Bool.false_eq_true, if_false] at h1
    cases hba : pyStrLt b.last_name a.last_name
    · have heq1 : a.last_name = b.last_name := pyStrLt_connex hab hba
      have : pyStrLt a.last_name c.last_name = true := by rw [heq1]; exact hbc
      simp [this]
    · simp [hba] at h1
  · simp only [hbc, Bool.false_eq_true, if_false] at h2
    cases hcb : pyStrLt c.last_name b.last_name
    · have heq2 : b.last_name = c.last_name := pyStrLt_connex hbc hcb
      rw [heq2] at hab
      simp [hab]
    · simp [hcb] at h2
  · simp [pyStrLt_trans hab hbc]

theorem contactLe_total (a b : Contact) : contactLe a b || contactLe b a := by
  simp only [contactLe]
  cases hab : pyStrLt a.last_name b.last_name <;> cases hba : pyStrLt b.last_name a.last_name
  · simp only [hab, hba, Bool.false_eq_true, if_false, Bool.or_eq_true,
      Bool.not_eq_eq_eq_not, Bool.not_true]
    cases hf : pyStrLt b.first_name a.first_name
    · simp
    · cases hg : pyStrLt a.first_name b.first_name
      · simp
      · have := pyStrLt_trans hg hf
        rw [pyStrLt_irrefl] at this
        cases this
  · simp [hba]
  · simp [hab]
  · have := pyStrLt_trans hab hba
    rw [pyStrLt_irrefl] at this
    cases this

/-! ## Claim C6: the date parser returns the first successful format -/

theorem findSome?_first {α β : Type} (f : α → Option β) :
    ∀ (l : List α) (b : β), l.findSome? f = some b →
      ∃ i : Fin l.length, f (l.get i) = some b ∧
        ∀ j : Fin l.length, j.val < i.val → f (l.get j) = none
  | [], b, h => by simp at h
  | a :: l, b, h => by
    rw [List.findSome?_cons] at h
    cases hfa : f a with
    | some b0 =>
      rw [hfa] at h
      cases h
      exact ⟨⟨0, Nat.succ_pos _⟩, hfa, fun j hj => absurd hj (Nat.not_lt_zero _)⟩
    | none =>
      rw [hfa] at h
      rcases findSome?_first f l b h with ⟨i, hfi, hall⟩
      refine ⟨i.succ, by rw [show (a :: l).get i.succ = l.get i from rfl]; exact hfi, ?_⟩
      intro j hj
      rcases j with ⟨jv, hjlt⟩
      cases jv with
      | zero => simpa using hfa
      | succ k =>
        have hk : k < i.val := by simpa [Fin.lt_def] using hj
        have := hall ⟨k, by omega⟩ hk
        simpa using this

/-- C6: `parse_date` tries the fixed, ordered `date_formats` list and
returns the result of the first format that matches, returning `none`
exactly when no format matches; ambiguous inputs are therefore resolved
by list order. -/
theorem C6_parse_date_first_format (s : String) :
    (∀ d, parse_date s = some d →
      ∃ i : Fin date_formats.length,
        strptime (pyStrip s) (date_formats.get i) = some d ∧
        ∀ j : Fin date_formats.length, j.val < i.val →
          strptime (pyStrip s) (date_formats.get j) = none) ∧
    (parse_date s = none ↔ ∀ fmt ∈ date_formats, strptime (pyStrip s) fmt = none) := by
  constructor
  · intro d h
    exact findSome?_first _ date_formats d h
  · rw [parse_date]
    exact List.findSome?_eq_none_iff

/-- Witness for C6 at the ambiguous input `"01-02-2023"`: format index 2
(`"%m-%d-%Y"`) wins, giving January 2, 2023 — not the `%d/%m/%Y` reading
— and every earlier format fails. -/
theorem C6_parse_date_first_format_witness :
    parse_date "01-02-2023" = some ⟨2023, 1, 2, 0, 0, 0⟩ ∧
    (∃ i : Fin date_formats.length,
      strptime (pyStrip "01-02-2023") (date_formats.get i) = some ⟨2023, 1, 2, 0, 0, 0⟩ ∧
      ∀ j : Fin date_formats.length, j.val < i.val →
        strptime (pyStrip "01-02-2023") (date_formats.get j) = none) :=
  ⟨by decide,
   (C6_parse_date_first_format "01-02-2023").1 ⟨2023, 1, 2, 0, 0, 0⟩ (by decide)⟩

/-! ## Claim C3: count_wednesdays -/

/-- C3: with the input file missing, `count_wednesdays` writes the single
line `"0"`; with input content present, it writes, as a single integer
line, the number of lines that the date parser maps to a Wednesday
(weekday 2); in particular a file with zero lines yields `"0"`. -/
theorem C3_count_wednesdays_spec (fs : FS) :
    (fs.files.lookup (pjoin DATA_DIR "dates.txt") = none →
      (count_wednesdays fs).2 =
        .ok (fs.write (pjoin DATA_DIR "dates-wednesdays.txt") "0\n")) ∧
    (∀ content, fs.files.lookup (pjoin DATA_DIR "dates.txt") = some content →
      (count_wednesdays fs).2 =
        .ok (fs.write (pjoin DATA_DIR "dates-wednesdays.txt")
          (toString (wednesdayCount content) ++ "\n")) ∧
      wednesdayCount content = ((pyReadlines content).filter isWednesdayLine).length ∧
      (pyReadlines content = [] → toString (wednesdayCount content) ++ "\n" = "0\n")) := by
  have h1 := enforce_security_ok (p := pjoin DATA_DIR "dates.txt") (by decide)
  have h2 := enforce_security_ok (p := pjoin DATA_DIR "dates-wednesdays.txt") (by decide)
  constructor
  · intro hmiss
    simp only [count_wednesdays, h1, h2, hmiss]
  · intro content hread
    refine ⟨?_, List.countP_eq_length_filter _ _, ?_⟩
    · simp only [count_wednesdays, h1, h2, hread]
    · intro hempty
      simp only [wednesdayCount, hempty, List.countP_nil]
      decide

/-- Witness for C3: the empty file system (missing input) yields `"0"`,
and a concrete three-line file with two Wednesday dates yields `"2"`. -/
theorem C3_count_wednesdays_spec_witness :
    (count_wednesdays fs0).2 =
      .ok (fs0.write (pjoin DATA_DIR "dates-wednesdays.txt") "0\n") ∧
    (count_wednesdays fsDates).2 =
      .ok (fsDates.write (pjoin DATA_DIR "dates-wednesdays.txt")
        (toString (wednesdayCount "2023-01-04\nnot a date\n2023-01-11\n") ++ "\n")) ∧
    toString (wednesdayCount "2023-01-04\nnot a date\n2023-01-11\n") = "2" :=
  ⟨(C3_count_wednesdays_spec fs0).1 (by decide),
   ((C3_count_wednesdays_spec fsDates).2 "2023-01-04\nnot a date\n2023-01-11\n" (by decide)).1,
   by decide⟩

/-! ## Claim C5: recent_logs -/

theorem mtimeGe_trans (a b c : String × Nat) (h1 : mtimeGe a b = true)
    (h2 : mtimeGe b c = true) : mtimeGe a c = true := by
  simp only [mtimeGe, decide_eq_true_eq] at h1 h2 ⊢
  exact le_trans h2 h1

theorem mtimeGe_total (a b : String × Nat) : mtimeGe a b || mtimeGe b a := by
  simp only [mtimeGe, Bool.or_eq_true, decide_eq_true_eq]
  exact (Nat.le_total a.2 b.2).symm.imp id id

theorem getMtimes_snd_ok (fs : FS) (ps : List String)
    (hm : ∀ p ∈ ps, (fs.mtimes.lookup p).isSome) :
    (getMtimes fs ps).2 = .ok (ps.map fun p => (p, (fs.mtimes.lookup p).getD 0)) := by
  induction ps with
  | nil => rfl
  | cons p rest ih =>
    have hp := hm p (List.mem_cons_self p rest)
    rcases ho : fs.mtimes.lookup p with _ | t
    · rw [ho] at hp; cases hp
    · simp only [getMtimes, ho]
      rcases hr : getMtimes fs rest with ⟨tr, r⟩
      have hrec := ih fun q hq => hm q (List.mem_cons_of_mem p hq)
      rw [hr] at hrec
      dsimp only at hrec
      subst hrec
      dsimp only
      simp [ho]

theorem readFirstLines_snd_ok (fs : FS) (ps : List String)
    (hp : ∀ p ∈ ps, pyStartswith p DATA_DIR = true)
    (hf : ∀ p ∈ ps, (fs.files.lookup p).isSome) :
    (readFirstLines fs ps).2 =
      .ok (ps.map fun p => pyStrip (firstLineOf ((fs.files.lookup p).getD ""))) := by
  induction ps with
  | nil => rfl
  | cons p rest ih =>
    have hp0 := hp p (List.mem_cons_self p rest)
    have hf0 := hf p (List.mem_cons_self p rest)
    simp only [readFirstLines, enforce_security_ok hp0]
    rcases ho : fs.files.lookup p with _ | c
    · rw [ho] at hf0; cases hf0
    · rcases hr : readFirstLines fs rest with ⟨tr, r⟩
      have hrec := ih (fun q hq => hp q (List.mem_cons_of_mem p hq))
        (fun q hq => hf q (List.mem_cons_of_mem p hq))
      rw [hr] at hrec
      dsimp only at hrec
      subst hrec
      dsimp only
      simp [ho]

/-- C5: when the logs directory lists `names` (well-formed) and every
`.log` file has a modification time and content, `recent_logs` succeeds
and writes the stripped first lines of the selected files, joined by
newlines; the selection keeps at most ten files (all of them when fewer
exist), in non-increasing modification-time order, and every selected
file is at least as recent as every unselected one; an empty listing
selects nothing. -/
theorem C5_recent_logs_spec (fs : FS) (names : List String)
    (hwf : validEntries fs)
    (hl : fs.listing.lookup (pjoin DATA_DIR "logs") = some names)
    (hm : ∀ p ∈ logPaths names, (fs.mtimes.lookup p).isSome)
    (hf : ∀ p ∈ logPaths names, (fs.files.lookup p).isSome) :
    (recent_logs fs).2 =
      .ok (fs.write (pjoin DATA_DIR "logs-recent.txt")
        (String.intercalate "\n" ((selectedLogs fs names).map fun pm =>
          pyStrip (firstLineOf ((fs.files.lookup pm.1).getD ""))) ++ "\n")) ∧
    (selectedLogs fs names).length = min 10 (logPaths names).length ∧
    (selectedLogs fs names).Pairwise (fun a b => b.2 ≤ a.2) ∧
    (∀ x ∈ selectedLogs fs names,
      ∀ y ∈ (((logPaths names).map fun p =>
          (p, (fs.mtimes.lookup p).getD 0)).mergeSort mtimeGe).drop 10, y.2 ≤ x.2) ∧
    (names = [] → selectedLogs fs names = []) := by
  have h1 := enforce_security_ok (p := pjoin DATA_DIR "logs-recent.txt") (by decide)
  have hselmem : ∀ x ∈ selectedLogs fs names, x.1 ∈ logPaths names := by
    intro x hx
    have hx2 : x ∈ (logPaths names).map fun p => (p, (fs.mtimes.lookup p).getD 0) :=
      List.mem_mergeSort.mp (List.take_subset _ _ hx)
    rcases List.mem_map.mp hx2 with ⟨p, hp, rfl⟩
    exact hp
  refine ⟨?_, ?_, ?_, ?_, ?_⟩
  · simp only [recent_logs, h1, hl]
    rcases hgm : getMtimes fs ((names.filter (pyEndswith · ".log")).map (pjoin (pjoin DATA_DIR "logs"))) with ⟨tr1, r1⟩
    have hsnd := getMtimes_snd_ok fs (logPaths names) hm
    rw [show logPaths names =
      (names.filter (pyEndswith · ".log")).map (pjoin (pjoin DATA_DIR "logs")) from rfl, hgm] at hsnd
    dsimp only at hsnd
    subst hsnd
    dsimp only
    rcases hrf : readFirstLines fs
        (((((names.filter (pyEndswith · ".log")).map (pjoin (pjoin DATA_DIR "logs"))).map
          (fun p => (p, (fs.mtimes.lookup p).getD 0))).mergeSort mtimeGe).take 10 |>.map (·.1)) with ⟨tr2, r2⟩
    rw [hrf]
    have hsnd2 := readFirstLines_snd_ok fs ((selectedLogs fs names).map (·.1))
      (fun q hq => by
        rcases List.mem_map.mp hq with ⟨x, hx, rfl⟩
        exact logPaths_prefix fs hwf names hl x.1 (hselmem x hx))
      (fun q hq => by
        rcases List.mem_map.mp hq with ⟨x, hx, rfl⟩
        exact hf x.1 (hselmem x hx))
    rw [show (selectedLogs fs names).map (·.1) =
      (((((names.filter (pyEndswith · ".log")).map (pjoin (pjoin DATA_DIR "logs"))).map
        (fun p => (p, (fs.mtimes.lookup p).getD 0))).mergeSort mtimeGe).take 10 |>.map (·.1))
      from rfl, hrf] at hsnd2
    dsimp only at hsnd2
    subst hsnd2
    dsimp only
    simp only [selectedLogs, logPaths, List.map_map]
    rfl
  · simp only [selectedLogs, List.length_take, List.length_mergeSort, List.length_map]
  · have hs := List.sorted_mergeSort mtimeGe_trans mtimeGe_total
      ((logPaths names).map fun p => (p, (fs.mtimes.lookup p).getD 0))
    have hst : (selectedLogs fs names).Pairwise (fun a b => mtimeGe a b = true) :=
      hs.sublist (List.take_sublist _ _)
    exact hst.imp fun h => by simpa [mtimeGe] using h
  · intro x hx y hy
    have hs := List.sorted_mergeSort mtimeGe_trans mtimeGe_total
      ((logPaths names).map fun p => (p, (fs.mtimes.lookup p).getD 0))
    rw [← List.take_append_drop 10 ((((logPaths names).map fun p =>
      (p, (fs.mtimes.lookup p).getD 0)).mergeSort mtimeGe))] at hs
    have := (List.pairwise_append.mp hs).2.2 x hx y hy
    simpa [mtimeGe] using this
  · intro hempty
    subst hempty
    simp [selectedLogs, logPaths]

/-- Witness for C5: fifteen log files with distinct, shuffled
modification times (plus one non-log entry); the selection has exactly
ten entries and is the ten most recent, most recent first. -/
theorem C5_recent_logs_spec_witness :
    (recent_logs fsLogs15).2 =
      .ok (fsLogs15.write (pjoin DATA_DIR "logs-recent.txt")
        (String.intercalate "\n" ((selectedLogs fsLogs15 logNames15).map fun pm =>
          pyStrip (firstLineOf ((fsLogs15.files.lookup pm.1).getD ""))) ++ "\n")) ∧
    (selectedLogs fsLogs15 logNames15).length = 10 ∧
    selectedLogs fsLogs15 logNames15 =
      [("data/logs/f02.log", 115), ("data/logs/f14.log", 114), ("data/logs/f04.log", 113),
       ("data/logs/f12.log", 112), ("data/logs/f06.log", 111), ("data/logs/f10.log", 110),
       ("data/logs/f08.log", 109), ("data/logs/f09.log", 108), ("data/logs/f07.log", 107),
       ("data/logs/f11.log", 106)] := by
  have happ := C5_recent_logs_spec fsLogs15 logNames15
    (by simp only [validEntries]; decide) (by decide) (by decide) (by decide)
  refine ⟨happ.1, ?_, ?_⟩
  · rw [happ.2.1]
    decide
  · rw [selectedLogs, show (logPaths logNames15).map
        (fun p => (p, (fsLogs15.mtimes.lookup p).getD 0)) =
      [("data/logs/f01.log", 101), ("data/logs/f02.log", 115), ("data/logs/f03.log", 103),
       ("data/logs/f04.log", 113), ("data/logs/f05.log", 105), ("data/logs/f06.log", 111),
       ("data/logs/f07.log", 107), ("data/logs/f08.log", 109), ("data/logs/f09.log", 108),
       ("data/logs/f10.log", 110), ("data/logs/f11.log", 106), ("data/logs/f12.log", 112),
       ("data/logs/f13.log", 104), ("data/logs/f14.log", 114), ("data/logs/f15.log", 102)]
      from by decide]
    simp [List.mergeSort, List.merge, mtimeGe]

/-! ## Claim C4: sort_contacts -/

/-- C4: with a parsable contacts file, `sort_contacts` writes the
serialization of `sortContactsList l`, which is a permutation of the
input, non-decreasing in the `(last_name, first_name)` key, and stable:
a pair of records with equal keys keeps its original relative order. -/
theorem C4_sort_contacts_spec (ext : Ext) (fs : FS) (content : String) (l : List Contact)
    (hread : fs.files.lookup (pjoin DATA_DIR "contacts.json") = some content)
    (hparse : ext.parseContacts content = some l) :
    (sort_contacts ext fs).2 =
      .ok (fs.write (pjoin DATA_DIR "contacts-sorted.json")
        (ext.dumpContacts (sortContactsList l))) ∧
    (sortContactsList l).Perm l ∧
    (sortContactsList l).Pairwise (fun a b => contactLe a b = true) ∧
    (∀ a b : Contact, a.last_name = b.last_name → a.first_name = b.first_name →
      List.Sublist [a, b] l → List.Sublist [a, b] (sortContactsList l)) := by
  refine ⟨?_, List.mergeSort_perm l contactLe,
    List.sorted_mergeSort contactLe_trans contactLe_total l, ?_⟩
  · have h1 := enforce_security_ok (p := pjoin DATA_DIR "contacts.json") (by decide)
    have h2 := enforce_security_ok (p := pjoin DATA_DIR "contacts-sorted.json") (by decide)
    simp only [sort_contacts, h1, h2, hread, hparse]
  · intro a b hlast hfirst hsub
    have hle : contactLe a b = true := by
      simp [contactLe, hlast, hfirst, pyStrLt_irrefl]
    exact List.pair_sublist_mergeSort contactLe_trans contactLe_total hle hsub

/-- Witness for C4: two records with identical names but different email
fields keep their original relative order behind the record that sorts
first. -/
theorem C4_sort_contacts_spec_witness :
    (sort_contacts extContacts fsContacts).2 =
      .ok (fsContacts.write (pjoin DATA_DIR "contacts-sorted.json")
        (extContacts.dumpContacts (sortContactsList l4))) ∧
    sortContactsList l4 = [c4c, c4a, c4b] := by
  refine ⟨(C4_sort_contacts_spec extContacts fsContacts "json" l4 (by decide) rfl).1, ?_⟩
  simp [sortContactsList, l4, c4a, c4b, c4c, List.mergeSort, List.merge,
    contactLe, pyStrLt, charListLt]

/-! ## Dispatcher case analysis -/

theorem task_map_mem (ext : Ext) (task : String) :
    (task ∉ taskNames ∧ task_map ext task = none) ∨
    (task ∈ taskNames ∧ ∃ f, task_map ext task = some f ∧ f ∈ taskFns ext) := by
  rw [task_map.eq_def]
  split
  · exact Or.inr ⟨by decide, _, rfl, by simp [taskFns]⟩
  · exact Or.inr ⟨by decide, _, rfl, by simp [taskFns]⟩
  · exact Or.inr ⟨by decide, _, rfl, by simp [taskFns]⟩
  · exact Or.inr ⟨by decide, _, rfl, by simp [taskFns]⟩
  · exact Or.inr ⟨by decide, _, rfl, by simp [taskFns]⟩
  · exact Or.inr ⟨by decide, _, rfl, by simp [taskFns]⟩
  · exact Or.inr ⟨by decide, _, rfl, by simp [taskFns]⟩
  · exact Or.inr ⟨by decide, _, rfl, by simp [taskFns]⟩
  · rename_i hne
    refine Or.inl ⟨?_, rfl⟩
    intro hmem
    simp only [taskNames, List.mem_cons, List.not_mem_nil, or_false] at hmem
    rcases hmem with h|h|h|h|h|h|h|h <;> subst h <;> simp_all

theorem run_task_fst (ext : Ext) (task : String) (fs : FS) (f : FS → TaskOut)
    (hf : task_map ext task = some f) : (run_task ext task fs).1 = (f fs).1 := by
  rcases hr : f fs with ⟨tr, r⟩
  cases r <;> simp [run_task, hf, hr]

/-! ## Claim C7: run dispatch -/

/-- C7: `run(task)` with a name outside the registry returns the
invalid-request failure (HTTP 400) with an empty access trace — no
file-system event happens; with a registered name it runs that task
function: a normal return yields the success response and the task's
file system, and a raised exception yields HTTP 500 carrying the
exception's message. -/
theorem C7_run_dispatch (ext : Ext) (task : String) (fs : FS) :
    (task ∉ taskNames → run_task ext task fs = ([], .failure 400 "Invalid task")) ∧
    (∀ f, task_map ext task = some f →
      (∀ tr fs2, f fs = (tr, .ok fs2) → run_task ext task fs = (tr, .success fs2)) ∧
      (∀ tr e, f fs = (tr, .error e) →
        run_task ext task fs = (tr, .failure 500 (errDetail e)))) := by
  constructor
  · intro hn
    rcases task_map_mem ext task with ⟨_, hnone⟩ | ⟨hmem, _⟩
    · simp [run_task, hnone]
    · exact absurd hmem hn
  · intro f hf
    constructor
    · intro tr fs2 hrun
      simp [run_task, hf, hrun]
    · intro tr e hrun
      simp [run_task, hf, hrun]

/-- Witness for C7: an unknown name is rejected with no trace; a known
task runs to success; a known task whose input file is missing raises,
and the dispatcher reports HTTP 500 with the message. -/
theorem C7_run_dispatch_witness :
    run_task ext0 "bogus" fs0 = ([], .failure 400 "Invalid task") ∧
    run_task ext0 "count_wednesdays" fs0 =
      ([.guard "data/dates.txt", .guard "data/dates-wednesdays.txt", .statE "data/dates.txt",
        .openW "data/dates-wednesdays.txt"],
       .success (fs0.write "data/dates-wednesdays.txt" "0\n")) ∧
    run_task ext0 "sort_contacts" fs0 =
      ([.guard "data/contacts.json", .guard "data/contacts-sorted.json",
        .openR "data/contacts.json"],
       .failure 500 "No such file or directory: data/contacts.json") :=
  ⟨(C7_run_dispatch ext0 "bogus" fs0).1 (by decide),
   ((C7_run_dispatch ext0 "count_wednesdays" fs0).2 count_wednesdays rfl).1 _ _ (by decide),
   ((C7_run_dispatch ext0 "sort_contacts" fs0).2 (sort_contacts ext0) rfl).2
     [.guard "data/contacts.json", .guard "data/contacts-sorted.json", .openR "data/contacts.json"]
     (.exc "No such file or directory: data/contacts.json") (by decide)⟩

/-! ## Claim C2: guard coverage of file accesses -/

/-- The run of `recent_logs` on the one-file state, fully evaluated. -/
theorem recent_logs_fsLogsSmall_eq :
    recent_logs fsLogsSmall =
      ([.guard "data/logs-recent.txt", .listD "data/logs", .statM "data/logs/a.log",
        .guard "data/logs/a.log", .openR "data/logs/a.log", .openW "data/logs-recent.txt"],
       .ok (fsLogsSmall.write "data/logs-recent.txt" "alpha line\n")) := by
  have e1 : pjoin DATA_DIR "logs-recent.txt" = "data/logs-recent.txt" := by decide
  have e2 : pjoin DATA_DIR "logs" = "data/logs" := by decide
  have hes1 := enforce_security_ok (p := "data/logs-recent.txt") (by decide)
  have hes2 := enforce_security_ok (p := "data/logs/a.log") (by decide)
  have e3 : fsLogsSmall.listing.lookup "data/logs" = some ["a.log"] := by decide
  have e4 : (["a.log"].filter (pyEndswith · ".log")).map (pjoin "data/logs") =
      ["data/logs/a.log"] := by decide
  have e5 : getMtimes fsLogsSmall ["data/logs/a.log"] =
      ([.statM "data/logs/a.log"], .ok [("data/logs/a.log", 5)]) := by
    simp [getMtimes, fsLogsSmall]
  have e6 : ([(("data/logs/a.log" : String), (5:Nat))].mergeSort mtimeGe).take 10 =
      [("data/logs/a.log", 5)] := by simp
  have e7 : readFirstLines fsLogsSmall ["data/logs/a.log"] =
      ([.guard "data/logs/a.log", .openR "data/logs/a.log"], .ok ["alpha line"]) := by
    simp [readFirstLines, fsLogsSmall, hes2]
    decide
  simp only [recent_logs, e1, e2, hes1, e3, e4, e5, e6, e7]
  decide

/-- C2 as stated is false: `recent_logs` reads the directory path
`data/logs` (the listing) without any Path Guard check of that path, and
it reads each candidate log file's modification time before the per-file
guard check runs. -/
theorem C2_counterexample :
    Event.listD "data/logs" ∈ (recent_logs fsLogsSmall).1 ∧
    Event.guard "data/logs" ∉ (recent_logs fsLogsSmall).1 ∧
    (recent_logs fsLogsSmall).1.indexOf (Event.statM "data/logs/a.log") <
      (recent_logs fsLogsSmall).1.indexOf (Event.guard "data/logs/a.log") := by
  rw [recent_logs_fsLogsSmall_eq]
  decide

/-- C2 (amended): every path a task opens for reading or writing —
including each file discovered via a directory listing — receives a Path
Guard check earlier in the run, and a path not prefixed by the data root
makes the guard raise the security violation; however, listed directory
paths themselves are never guard-checked, and log-file modification
times are read during sorting before the per-file check. -/
theorem C2_opens_guarded (ext : Ext) (task : String) (fs : FS) :
    wellGuardedFrom [] (run_task ext task fs).1 = true ∧
    (∀ p : String, pyStartswith p DATA_DIR = false →
      enforce_security p = .error (.perm p)) := by
  constructor
  · rcases task_map_mem ext task with ⟨_, hnone⟩ | ⟨_, f, hf, hmem⟩
    · simp only [run_task, hnone]
      rfl
    · rw [run_task_fst ext task fs f hf]
      simp only [taskFns, List.mem_cons, List.not_mem_nil, or_false] at hmem
      rcases hmem with h|h|h|h|h|h|h|h <;> subst h
      · exact wg_count_wednesdays fs
      · exact wg_sort_contacts ext fs
      · exact wg_recent_logs fs
      · exact wg_index_markdown fs
      · exact wg_email_sender fs
      · exact wg_extract_credit_card ext fs
      · exact wg_similar_comments ext fs
      · exact wg_total_gold_sales ext fs
  · intro p hp
    simp [enforce_security, hp]

/-- Witness for C2 (amended). -/
theorem C2_opens_guarded_witness :
    wellGuardedFrom [] (run_task ext0 "recent_logs" fsLogsSmall).1 = true ∧
    enforce_security "/etc/passwd" = .error (.perm "/etc/passwd") :=
  ⟨(C2_opens_guarded ext0 "recent_logs" fsLogsSmall).1,
   (C2_opens_guarded ext0 "recent_logs" fsLogsSmall).2 "/etc/passwd" (by decide)⟩

/-! ## Claim C10: the guard never fires inside the tasks -/

/-- C10: under the operating-system guarantee that directory listings
report bare names (never absolute paths), every path a task passes to
`enforce_security` is the data root joined with a fixed file name or a
listing entry, so it carries the data-root prefix: every guard event in
a run checks a path for which `enforce_security` succeeds, and no task
ever fails with the security violation (`PermissionError`). -/
theorem C10_guards_always_pass (ext : Ext) (fs : FS) (hwf : validEntries fs)
    (task : String) (htask : task ∈ taskNames) :
    (∀ p, Event.guard p ∈ (run_task ext task fs).1 → enforce_security p = .ok ()) ∧
    (∀ f, task_map ext task = some f → ∀ q, (f fs).2 ≠ .error (.perm q)) := by
  rcases task_map_mem ext task with ⟨hn, _⟩ | ⟨_, f, hf, hmem⟩
  · exact absurd htask hn
  · simp only [taskFns, List.mem_cons, List.not_mem_nil, or_false] at hmem
    have hgd : guardsWithinData (f fs).1 = true := by
      rcases hmem with h|h|h|h|h|h|h|h <;> subst h
      · exact gd_count_wednesdays fs
      · exact gd_sort_contacts ext fs
      · exact gd_recent_logs fs hwf
      · exact gd_index_markdown fs hwf
      · exact gd_email_sender fs
      · exact gd_extract_credit_card ext fs
      · exact gd_similar_comments ext fs
      · exact gd_total_gold_sales ext fs
    constructor
    · intro p hp
      rw [run_task_fst ext task fs f hf] at hp
      have := List.all_eq_true.mp hgd (Event.guard p) hp
      exact enforce_security_ok (by simpa [guardsWithinData] using this)
    · intro f2 hf2 q
      rw [hf] at hf2
      injection hf2 with hf2
      subst hf2
      rcases hmem with h|h|h|h|h|h|h|h <;> subst h
      · exact np_count_wednesdays fs q
      · exact np_sort_contacts ext fs q
      · exact np_recent_logs fs hwf q
      · exact np_index_markdown fs hwf q
      · exact np_email_sender fs q
      · exact np_extract_credit_card ext fs q
      · exact np_similar_comments ext fs q
      · exact np_total_gold_sales ext fs q

/-- Witness for C10 on the one-log-file state. -/
theorem C10_guards_always_pass_witness :
    enforce_security "data/logs/a.log" = .ok () ∧
    ∀ q, (recent_logs fsLogsSmall).2 ≠ .error (.perm q) := by
  have h := C10_guards_always_pass ext0 fsLogsSmall
    (by simp only [validEntries]; decide) "recent_logs" (by decide)
  refine ⟨h.1 "data/logs/a.log" ?_, h.2 recent_logs rfl⟩
  rw [show (run_task ext0 "recent_logs" fsLogsSmall).1 = (recent_logs fsLogsSmall).1 from
    run_task_fst ext0 "recent_logs" fsLogsSmall recent_logs rfl,
    recent_logs_fsLogsSmall_eq]
  decide

/-! ## Claim C8: similar_comments with fewer than two comments -/

/-- C8: when the comments file holds fewer than two non-empty lines,
`similar_comments` returns before touching the output file: the file
system is left exactly as it was, the trace contains no write event, and
`run` reports success. -/
theorem C8_similar_comments_noop (ext : Ext) (fs : FS) (content : String)
    (hread : fs.files.lookup (pjoin DATA_DIR "comments.txt") = some content)
    (hfew : (commentLines content).length < 2) :
    similar_comments ext fs =
      ([.guard (pjoin DATA_DIR "comments.txt"), .guard (pjoin DATA_DIR "comments-similar.txt"),
        .openR (pjoin DATA_DIR "comments.txt")], .ok fs) ∧
    run_task ext "similar_comments" fs =
      ([.guard (pjoin DATA_DIR "comments.txt"), .guard (pjoin DATA_DIR "comments-similar.txt"),
        .openR (pjoin DATA_DIR "comments.txt")], .success fs) := by
  have h1 := enforce_security_ok (p := pjoin DATA_DIR "comments.txt") (by decide)
  have h2 := enforce_security_ok (p := pjoin DATA_DIR "comments-similar.txt") (by decide)
  have hsim : similar_comments ext fs =
      ([.guard (pjoin DATA_DIR "comments.txt"), .guard (pjoin DATA_DIR "comments-similar.txt"),
        .openR (pjoin DATA_DIR "comments.txt")], .ok fs) := by
    simp only [similar_comments, h1, h2, hread]
    rw [if_pos hfew]
  refine ⟨hsim, ?_⟩
  rw [run_task, show task_map ext "similar_comments" = some (similar_comments ext) from rfl]
  dsimp only
  rw [hsim]

/-- Witness for C8: a comments file whose only non-empty stripped line is
`"just one comment"`. -/
theorem C8_similar_comments_noop_witness :
    similar_comments ext0 fsComments =
      ([.guard (pjoin DATA_DIR "comments.txt"), .guard (pjoin DATA_DIR "comments-similar.txt"),
        .openR (pjoin DATA_DIR "comments.txt")], .ok fsComments) ∧
    run_task ext0 "similar_comments" fsComments =
      ([.guard (pjoin DATA_DIR "comments.txt"), .guard (pjoin DATA_DIR "comments-similar.txt"),
        .openR (pjoin DATA_DIR "comments.txt")], .success fsComments) :=
  C8_similar_comments_noop ext0 fsComments "just one comment\n\n   \n" (by decide) (by decide)

/-! ## Claim C9: total_gold_sales -/

/-- C9: with a readable tickets table, `total_gold_sales` writes, as a
single numeric line, the sum of `units * price` over the rows whose type
is Gold; when the table is empty or has no Gold row the written line is
`"0"` (the SQL `NULL` of an empty sum collapses to 0 exactly as the
source's `or 0` does). -/
theorem C9_total_gold_sales_spec (ext : Ext) (fs : FS) (content : String) (rows : List Ticket)
    (hdb : fs.files.lookup (pjoin DATA_DIR "ticket-sales.db") = some content)
    (hrt : ext.readTickets content = some rows) :
    (total_gold_sales ext fs).2 =
      .ok (fs.write (pjoin DATA_DIR "ticket-sales-gold.txt")
        (toString (goldTotal rows) ++ "\n")) ∧
    goldTotal rows =
      ((rows.filter fun r => r.type = "Gold").map fun r => r.units * r.price).sum ∧
    (rows.filter (fun r => r.type = "Gold") = [] →
      toString (goldTotal rows) ++ "\n" = "0\n") := by
  have h1 := enforce_security_ok (p := pjoin DATA_DIR "ticket-sales.db") (by decide)
  have h2 := enforce_security_ok (p := pjoin DATA_DIR "ticket-sales-gold.txt") (by decide)
  refine ⟨?_, rfl, ?_⟩
  · simp only [total_gold_sales, h1, h2, hdb, hrt]
  · intro hempty
    simp only [goldTotal, hempty, List.map_nil, List.sum_nil]
    decide

/-- Witness for C9: two Gold rows (2×5 and 1×3) among a Silver row give
`"13"`; an empty table gives `"0"`. -/
theorem C9_total_gold_sales_spec_witness :
    (total_gold_sales extTickets fsTickets).2 =
      .ok (fsTickets.write (pjoin DATA_DIR "ticket-sales-gold.txt")
        (toString (goldTotal ticketRows) ++ "\n")) ∧
    toString (goldTotal ticketRows) = "13" ∧
    (total_gold_sales extTicketsEmpty fsTickets).2 =
      .ok (fsTickets.write (pjoin DATA_DIR "ticket-sales-gold.txt")
        (toString (goldTotal []) ++ "\n")) ∧
    toString (goldTotal ([] : List Ticket)) ++ "\n" = "0\n" :=
  ⟨(C9_total_gold_sales_spec extTickets fsTickets "db" ticketRows (by decide) rfl).1,
   by decide,
   (C9_total_gold_sales_spec extTicketsEmpty fsTickets "db" [] (by decide) rfl).1,
   (C9_total_gold_sales_spec extTicketsEmpty fsTickets "db" [] (by decide) rfl).2.2 rfl⟩

/-! ## Claim C1: the get endpoint -/

/-- C1 is a code bug: for every known task, the `try` block of
`get_task_output` evaluates the undefined name `read_output_file`, so the
response is HTTP 500 with the `NameError` message even when the mapped
output file exists and is readable — the endpoint never returns
`"output": file contents`.  The 400 branch for unknown names does hold. -/
theorem C1_get_output_bug :
    get_task_output "count_wednesdays" fsGet = ([], .failure 500 nameErrorDetail) ∧
    fsGet.files.lookup (pjoin DATA_DIR "dates-wednesdays.txt") = some "5\n" ∧
    get_task_output "unknown" fsGet = ([], .failure 400 "Invalid task") := by
  decide

end Automation
